import Mathlib

set_option maxRecDepth 8000

/-!
Verification of the speech-synthesis fallback chain of `text_to_speech.py`.

The module is embedded shallowly: external dependencies (gTTS, pyttsx3,
`say`, `afconvert`, `ffmpeg`, `espeak-ng`/`espeak`, PowerShell) are described
by an `Env` of availability / success flags, the file system is an explicit
map from paths to byte sizes plus a set of directories, and every
`subprocess.run` / backend invocation is recorded in an event trace.
A successful external writer is modelled as writing a file of the size the
environment prescribes for it; a failing call writes nothing.
-/

namespace TTSSpec

/-- The whitespace characters Python `str.strip()` removes: the ASCII range
`\x09`–`\x0d`, the information separators `\x1c`–`\x1f`, the space `\x20`,
next-line `\x85`, no-break space `\xa0`, and the Unicode space separators
(Ogham space mark, the en/em quad range U+2000–U+200A, line and paragraph
separators, narrow no-break space, medium mathematical space, ideographic
space). -/
def isPySpace (c : Char) : Bool :=
  c.val == 0x9 || c.val == 0xa || c.val == 0xb || c.val == 0xc || c.val == 0xd
    || c.val == 0x1c || c.val == 0x1d || c.val == 0x1e || c.val == 0x1f
    || c.val == 0x20 || c.val == 0x85 || c.val == 0xa0 || c.val == 0x1680
    || c.val == 0x2000 || c.val == 0x2001 || c.val == 0x2002
    || c.val == 0x2003 || c.val == 0x2004 || c.val == 0x2005
    || c.val == 0x2006 || c.val == 0x2007 || c.val == 0x2008
    || c.val == 0x2009 || c.val == 0x200a || c.val == 0x2028
    || c.val == 0x2029 || c.val == 0x202f || c.val == 0x205f
    || c.val == 0x3000

/-- Embeds Python `s.strip()`. -/
def pyStrip (s : String) : String :=
  String.mk (((s.data.dropWhile isPySpace).reverse.dropWhile isPySpace).reverse)

/-- Embeds the guard `not text or not text.strip()` of `generate_tts`. -/
def pyBlank (s : String) : Bool :=
  decide (s = "") || decide (pyStrip s = "")

/-- Index of the last occurrence of `c` in `cs` (auxiliary, accumulator form). -/
def rfindAux (c : Char) : List Char → Nat → Option Nat → Option Nat
  | [], _, acc => acc
  | x :: xs, i, acc => rfindAux c xs (i + 1) (if x = c then some i else acc)

/-- Embeds Python `s.rfind(c)` (position form): last index of `c`, if any. -/
def rfind (cs : List Char) (c : Char) : Option Nat :=
  rfindAux c cs 0 none

/-- Embeds `posixpath.dirname`. -/
def pyDirname (p : String) : String :=
  match rfind p.data '/' with
  | none => ""
  | some i =>
    let head := p.data.take (i + 1)
    if head.all (fun x => decide (x = '/')) then String.mk head
    else String.mk ((head.reverse.dropWhile (fun x => decide (x = '/'))).reverse)

/-- Embeds `posixpath.splitext` (CPython `genericpath._splitext` with sep `/`,
extsep `.`): splits off the extension of the basename unless the basename's
leading characters up to the last dot are all dots. -/
def splitext (p : String) : String × String :=
  match rfind p.data '.' with
  | none => (p, "")
  | some d =>
    let s : Nat :=
      match rfind p.data '/' with
      | none => 0
      | some i => i + 1
    if s ≤ d then
      if ((p.data.take d).drop s).all (fun x => decide (x = '.')) then (p, "")
      else (String.mk (p.data.take d), String.mk (p.data.drop d))
    else (p, "")

/-- Embeds `_change_ext`: `os.path.splitext(path)[0] + new_ext`. -/
def change_ext (path new_ext : String) : String :=
  (splitext path).1 ++ new_ext

/-- Embeds Python `s.lower()` (ASCII case folding on each character). -/
def pyLower (s : String) : String :=
  String.mk (s.data.map Char.toLower)

/-- Embeds Python `s.startswith(pre)`. -/
def pyStartsWith (s pre : String) : Bool :=
  pre.data.isPrefixOf s.data

/-- Embeds Python `s.replace("\x27", "\x27\x27")` used to quote strings in the
generated PowerShell script. -/
def pyReplaceQuote (s : String) : String :=
  String.mk (s.data.flatMap (fun c => if c = '\x27' then ['\x27', '\x27'] else [c]))

/-- File system model: existing files with their byte sizes, plus the set of
existing directories. -/
structure FS where
  files : List (String × Nat)
  dirs : List String
  deriving DecidableEq

def emptyFS : FS := ⟨[], []⟩

/-- Embeds `os.path.exists` for files. -/
def fsExistsFile (fs : FS) (p : String) : Bool :=
  fs.files.any (fun q => decide (q.1 = p))

/-- A successful external writer producing a file of `n` bytes at `p`
(overwriting any previous file there). -/
def fsWrite (fs : FS) (p : String) (n : Nat) : FS :=
  { fs with files := (p, n) :: fs.files.filter (fun q => decide (q.1 ≠ p)) }

/-- Embeds `os.remove`. -/
def fsRemove (fs : FS) (p : String) : FS :=
  { fs with files := fs.files.filter (fun q => decide (q.1 ≠ p)) }

/-- Size of the file at `p`, when it exists. -/
def fsSize (fs : FS) (p : String) : Option Nat :=
  (fs.files.find? (fun q => decide (q.1 = p))).map Prod.snd

/-- Embeds `_ensure_dir` / `os.makedirs(p, exist_ok=True)` (success case). -/
def ensureDir (fs : FS) (d : String) : FS :=
  if d ∈ fs.dirs then fs else { fs with dirs := d :: fs.dirs }

/-- Availability and behavior of the external dependencies `generate_tts`
probes.  `…Ok` fields say whether the corresponding import / call / external
process succeeds; `…OnPath` fields embed `shutil.which`; `…Bytes` fields give
the size of the audio file the corresponding writer produces on success. -/
structure Env where
  gttsImportOk : Bool
  gttsSaveOk : Bool
  gttsBytes : Nat
  pyttsx3ImportOk : Bool
  pyttsx3RunOk : Bool
  pyttsx3CreatesWav : Bool
  pyttsx3Bytes : Nat
  sysPlatform : String
  sayOnPath : Bool
  sayRunOk : Bool
  sayBytes : Nat
  afconvertOnPath : Bool
  afconvertRunOk : Bool
  afconvertBytes : Nat
  ffmpegOnPath : Bool
  ffmpegRunOk : Bool
  ffmpegCreatesDst : Bool
  ffmpegBytes : Nat
  espeakNgOnPath : Bool
  espeakOnPath : Bool
  espeakRunOk : Bool
  espeakBytes : Nat
  powershellRunOk : Bool
  powershellCreatesWav : Bool
  powershellBytes : Nat
  mkdirOk : Bool
  deriving DecidableEq

/-- Embeds `_which` (`shutil.which(cmd) is not None`) for the commands the
module probes. -/
def which (e : Env) (cmd : String) : Bool :=
  if cmd = "ffmpeg" then e.ffmpegOnPath
  else if cmd = "say" then e.sayOnPath
  else if cmd = "afconvert" then e.afconvertOnPath
  else if cmd = "espeak-ng" then e.espeakNgOnPath
  else if cmd = "espeak" then e.espeakOnPath
  else false

/-- Python exceptions surfaced by `generate_tts`: `ValueError` for blank text,
an `OSError` from `os.makedirs`, and the final `RuntimeError`. -/
inductive PyError where
  | valueError (msg : String)
  | osError
  | runtimeError (msg : String)
  deriving DecidableEq

/-- Observable external actions: the gTTS save, the pyttsx3 engine invocation,
and every `subprocess.run` with its argument vector. -/
inductive Event where
  | gttsSave (path : String)
  | pyttsx3Invoke (text path : String)
  | subprocessRun (cmd : List String)
  deriving DecidableEq

abbrev TTSResult := Except PyError String × FS × List Event

/-- The argument vector `_convert_with_ffmpeg` passes to `subprocess.run`. -/
def ffmpegCmd (src dst : String) : List String :=
  ["ffmpeg", "-y", "-i", src, "-vn", "-ar", "44100", "-ac", "2", "-b:a", "192k", dst]

/-- Embeds `_convert_with_ffmpeg`: returns `none` when ffmpeg is absent, the
process fails, or the destination does not exist afterwards. -/
def convert_with_ffmpeg (e : Env) (fs : FS) (src dst : String) :
    Option String × FS × List Event :=
  if ¬ which e "ffmpeg" then (none, fs, [])
  else
    if ¬ e.ffmpegRunOk then (none, fs, [Event.subprocessRun (ffmpegCmd src dst)])
    else
      let fs2 := if e.ffmpegCreatesDst then fsWrite fs dst e.ffmpegBytes else fs
      if fsExistsFile fs2 dst then (some dst, fs2, [Event.subprocessRun (ffmpegCmd src dst)])
      else (none, fs2, [Event.subprocessRun (ffmpegCmd src dst)])

/-- The message of the final `RuntimeError` of `generate_tts`. -/
def noBackendMessage : String :=
  "No TTS backend available. Install one of: gTTS (`pip install gTTS`), pyttsx3 (`pip install pyttsx3`), or ensure OS TTS tools are available (macOS `say`, Linux `espeak-ng`/`espeak`)."

/-- The `raise RuntimeError(...)` at the end of `generate_tts`. -/
def noBackendResult (fs : FS) (ev : List Event) : TTSResult :=
  (.error (.runtimeError noBackendMessage), fs, ev)

/-- Arguments that `generate_tts` keeps fixed while walking the chain. -/
structure Ctx where
  env : Env
  text : String
  output_filepath : String
  requested_ext : String
  deriving DecidableEq

/-- The PowerShell script generated by the Windows branch. -/
def psScript (wavPath text : String) : String :=
  "\nAdd-Type -AssemblyName System.speech\n$spk = New-Object System.Speech.Synthesis.SpeechSynthesizer\n$spk.Rate = 0\n$out = \x27"
    ++ pyReplaceQuote wavPath
    ++ "\x27\n$spk.SetOutputToWaveFile($out)\n$spk.Speak(\x27"
    ++ pyReplaceQuote text
    ++ "\x27)\n$spk.Dispose()\n"

/-- Embeds the Windows (PowerShell SAPI) branch of `generate_tts` followed by
the final `raise RuntimeError` when nothing succeeded. -/
def windowsStage (c : Ctx) (fs : FS) (ev : List Event) : TTSResult :=
  if pyStartsWith c.env.sysPlatform "win" then
    let wav_path := change_ext c.output_filepath ".wav"
    let script := psScript wav_path c.text
    let ev := ev ++ [Event.subprocessRun ["powershell", "-NoProfile", "-Command", script]]
    if c.env.powershellRunOk then
      let fs :=
        if c.env.powershellCreatesWav then fsWrite fs wav_path c.env.powershellBytes
        else fs
      if fsExistsFile fs wav_path && decide (c.requested_ext = ".mp3") then
        let mp3_path := change_ext c.output_filepath ".mp3"
        match convert_with_ffmpeg c.env fs wav_path mp3_path with
        | (some _, fs2, ev2) => (.ok mp3_path, fsRemove fs2 wav_path, ev ++ ev2)
        | (none, fs2, ev2) =>
          if fsExistsFile fs2 wav_path then (.ok wav_path, fs2, ev ++ ev2)
          else noBackendResult fs2 (ev ++ ev2)
      else if fsExistsFile fs wav_path then (.ok wav_path, fs, ev)
      else noBackendResult fs ev
    else noBackendResult fs ev
  else noBackendResult fs ev

/-- Embeds the Linux (`espeak-ng`/`espeak`) branch of `generate_tts`.  The
modern command name is chosen when present, else the legacy one; on subprocess
failure the exception is swallowed and control falls through. -/
def linuxStage (c : Ctx) (fs : FS) (ev : List Event) : TTSResult :=
  if pyStartsWith c.env.sysPlatform "linux"
      && (which c.env "espeak-ng" || which c.env "espeak") then
    let wav_path := change_ext c.output_filepath ".wav"
    let cmd :=
      if which c.env "espeak-ng" then ["espeak-ng", "-w", wav_path, c.text]
      else ["espeak", "-w", wav_path, c.text]
    let ev := ev ++ [Event.subprocessRun cmd]
    if c.env.espeakRunOk then
      let fs := fsWrite fs wav_path c.env.espeakBytes
      if decide (c.requested_ext = ".mp3") then
        let mp3_path := change_ext c.output_filepath ".mp3"
        match convert_with_ffmpeg c.env fs wav_path mp3_path with
        | (some _, fs2, ev2) => (.ok mp3_path, fsRemove fs2 wav_path, ev ++ ev2)
        | (none, fs2, ev2) => (.ok wav_path, fs2, ev ++ ev2)
      else (.ok wav_path, fs, ev)
    else windowsStage c fs ev
  else windowsStage c fs ev

/-- Embeds the macOS (`say` + `afconvert`/ffmpeg) branch of `generate_tts`. -/
def macStage (c : Ctx) (fs : FS) (ev : List Event) : TTSResult :=
  if decide (c.env.sysPlatform = "darwin") && which c.env "say" then
    let aiff_path := change_ext c.output_filepath ".aiff"
    let ev := ev ++ [Event.subprocessRun ["say", "-o", aiff_path, c.text]]
    if c.env.sayRunOk then
      let fs := fsWrite fs aiff_path c.env.sayBytes
      if decide (c.requested_ext = ".mp3") then
        let mp3_path := change_ext c.output_filepath ".mp3"
        if which c.env "afconvert" then
          let m4a_path := change_ext c.output_filepath ".m4a"
          let ev := ev ++ [Event.subprocessRun
            ["afconvert", "-f", "m4af", "-d", "aac", aiff_path, m4a_path]]
          if c.env.afconvertRunOk then
            (.ok m4a_path, fsRemove (fsWrite fs m4a_path c.env.afconvertBytes) aiff_path, ev)
          else
            match convert_with_ffmpeg c.env fs aiff_path mp3_path with
            | (some _, fs2, ev2) => (.ok mp3_path, fsRemove fs2 aiff_path, ev ++ ev2)
            | (none, fs2, ev2) => (.ok aiff_path, fs2, ev ++ ev2)
        else
          match convert_with_ffmpeg c.env fs aiff_path mp3_path with
          | (some _, fs2, ev2) => (.ok mp3_path, fsRemove fs2 aiff_path, ev ++ ev2)
          | (none, fs2, ev2) => (.ok aiff_path, fs2, ev ++ ev2)
      else (.ok aiff_path, fs, ev)
    else linuxStage c fs ev
  else linuxStage c fs ev

/-- Embeds the pyttsx3 branch of `generate_tts`: save to a `.wav` intermediate,
optionally transcode to `.mp3` via ffmpeg (removing the intermediate), return
the wav as-is otherwise; on exception or missing output fall through. -/
def pyttsx3Stage (c : Ctx) (fs : FS) (ev : List Event) : TTSResult :=
  if c.env.pyttsx3ImportOk then
    let wav_path := change_ext c.output_filepath ".wav"
    let ev := ev ++ [Event.pyttsx3Invoke c.text wav_path]
    if c.env.pyttsx3RunOk then
      let fs :=
        if c.env.pyttsx3CreatesWav then fsWrite fs wav_path c.env.pyttsx3Bytes
        else fs
      if fsExistsFile fs wav_path && decide (c.requested_ext = ".mp3") then
        let mp3_path := change_ext c.output_filepath ".mp3"
        match convert_with_ffmpeg c.env fs wav_path mp3_path with
        | (some _, fs2, ev2) => (.ok mp3_path, fsRemove fs2 wav_path, ev ++ ev2)
        | (none, fs2, ev2) =>
          if fsExistsFile fs2 wav_path then (.ok wav_path, fs2, ev ++ ev2)
          else macStage c fs2 (ev ++ ev2)
      else if fsExistsFile fs wav_path then (.ok wav_path, fs, ev)
      else macStage c fs ev
    else macStage c fs ev
  else macStage c fs ev

/-- Embeds the gTTS branch of `generate_tts`: saves MP3 directly at the desired
path (extension changed to `.mp3` when the requested extension differs) and
short-circuits the chain on success. -/
def gttsStage (c : Ctx) (fs : FS) (ev : List Event) : TTSResult :=
  if c.env.gttsImportOk then
    let mp3_path :=
      if decide (c.requested_ext = ".mp3") then c.output_filepath
      else change_ext c.output_filepath ".mp3"
    let ev := ev ++ [Event.gttsSave mp3_path]
    if c.env.gttsSaveOk then (.ok mp3_path, fsWrite fs mp3_path c.env.gttsBytes, ev)
    else pyttsx3Stage c fs ev
  else pyttsx3Stage c fs ev

def OUTPUT_DIR : String := "output"

/-- Embeds `os.path.dirname(output_filepath) or OUTPUT_DIR`. -/
def outDirOf (output_filepath : String) : String :=
  if pyDirname output_filepath = "" then OUTPUT_DIR else pyDirname output_filepath

/-- Embeds `os.path.splitext(output_filepath)[1].lower() or ".mp3"`. -/
def requestedExtOf (output_filepath : String) : String :=
  if pyLower (splitext output_filepath).2 = "" then ".mp3"
  else pyLower (splitext output_filepath).2

/-- Embeds `generate_tts` of `text_to_speech.py`: reject blank text, ensure the
output directory (`os.path.dirname(output_filepath) or OUTPUT_DIR`), compute
the requested extension (default `.mp3`), then walk the chain
gTTS → pyttsx3 → macOS → Linux → Windows, raising `RuntimeError` at the end. -/
def generate_tts (e : Env) (fs0 : FS) (text output_filepath : String) : TTSResult :=
  if pyBlank text then (.error (.valueError "Text is empty."), fs0, [])
  else if ¬ e.mkdirOk then (.error .osError, fs0, [])
  else
    gttsStage ⟨e, text, output_filepath, requestedExtOf output_filepath⟩
      (ensureDir fs0 (outDirOf output_filepath)) []

/-! ## Derived predicates -/

/-- Backend A (gTTS) runs to completion: the import and the save both succeed. -/
def backendASucceeds (e : Env) : Bool :=
  e.gttsImportOk && e.gttsSaveOk

/-- Backend B (pyttsx3) produces a returnable file: the import and the engine
calls succeed and the `.wav` intermediate exists afterwards (freshly written,
or already present on disk). -/
def backendBSucceeds (e : Env) (fs : FS) (output_filepath : String) : Bool :=
  e.pyttsx3ImportOk && e.pyttsx3RunOk &&
    (e.pyttsx3CreatesWav || fsExistsFile fs (change_ext output_filepath ".wav"))

/-- Backend C on macOS: the platform matches, `say` is on the path and runs. -/
def backendCMacSucceeds (e : Env) : Bool :=
  decide (e.sysPlatform = "darwin") && e.sayOnPath && e.sayRunOk

/-- Backend C on Linux: the platform matches, a speech command exists and runs. -/
def backendCLinuxSucceeds (e : Env) : Bool :=
  pyStartsWith e.sysPlatform "linux" && (e.espeakNgOnPath || e.espeakOnPath)
    && e.espeakRunOk

/-- Backend C on Windows: the platform matches, PowerShell runs, and the `.wav`
file exists afterwards (freshly written, or already present on disk). -/
def backendCWinSucceeds (e : Env) (fs : FS) (output_filepath : String) : Bool :=
  pyStartsWith e.sysPlatform "win" && e.powershellRunOk &&
    (e.powershellCreatesWav || fsExistsFile fs (change_ext output_filepath ".wav"))

/-- Some backend in the chain runs to completion. -/
def anyBackendSucceeds (e : Env) (fs : FS) (output_filepath : String) : Bool :=
  backendASucceeds e || backendBSucceeds e fs output_filepath ||
    backendCMacSucceeds e || backendCLinuxSucceeds e ||
    backendCWinSucceeds e fs output_filepath

/-- Every external writer of the environment produces a non-empty file. -/
def envBytesPos (e : Env) : Prop :=
  0 < e.gttsBytes ∧ 0 < e.pyttsx3Bytes ∧ 0 < e.sayBytes ∧ 0 < e.afconvertBytes
    ∧ 0 < e.ffmpegBytes ∧ 0 < e.espeakBytes ∧ 0 < e.powershellBytes

/-- Every file of the file system is non-empty. -/
def fsAllPos (fs : FS) : Prop :=
  ∀ q n, (q, n) ∈ fs.files → 0 < n

/-- The paths `generate_tts` can hand to a writer or return. -/
def pathCandidates (p : String) : List String :=
  [p, change_ext p ".mp3", change_ext p ".wav", change_ext p ".aiff",
    change_ext p ".m4a"]

/-- The event is an invocation of backend B (pyttsx3) or of one of the
platform speech tools of backend C (not of a mere format converter). -/
def isBackendBCInvocation : Event → Bool
  | .gttsSave _ => false
  | .pyttsx3Invoke _ _ => true
  | .subprocessRun cmd =>
    cmd.head? = some "say" || cmd.head? = some "espeak-ng"
      || cmd.head? = some "espeak" || cmd.head? = some "powershell"

/-! ## File-system lemmas -/

theorem ensureDir_files (fs : FS) (d : String) : (ensureDir fs d).files = fs.files := by
  unfold ensureDir; split <;> rfl

theorem fsExistsFile_ensureDir (fs : FS) (d p : String) :
    fsExistsFile (ensureDir fs d) p = fsExistsFile fs p := by
  unfold fsExistsFile; rw [ensureDir_files]

theorem fsExistsFile_iff (fs : FS) (p : String) :
    fsExistsFile fs p = true ↔ ∃ n, (p, n) ∈ fs.files := by
  unfold fsExistsFile
  simp only [List.any_eq_true, decide_eq_true_eq]
  constructor
  · rintro ⟨⟨a, b⟩, hmem, rfl⟩; exact ⟨b, hmem⟩
  · rintro ⟨n, hmem⟩; exact ⟨(p, n), hmem, rfl⟩

theorem fsExistsFile_fsWrite (fs : FS) (q p : String) (n : Nat) :
    fsExistsFile (fsWrite fs q n) p = (decide (p = q) || fsExistsFile fs p) := by
  by_cases h : p = q
  · subst h
    simp [fsExistsFile, fsWrite]
  · simp only [decide_eq_false h, Bool.false_or]
    unfold fsExistsFile fsWrite
    simp only [List.any_cons, decide_eq_true_eq]
    rw [decide_eq_false (fun hqp => h hqp.symm), Bool.false_or]
    apply Bool.eq_iff_iff.mpr
    simp only [List.any_eq_true, List.mem_filter, decide_eq_true_eq]
    constructor
    · rintro ⟨x, ⟨hx, _⟩, hxp⟩; exact ⟨x, hx, hxp⟩
    · rintro ⟨x, hx, hxp⟩
      exact ⟨x, ⟨hx, by simp [hxp, h]⟩, hxp⟩

theorem fsExistsFile_fsRemove (fs : FS) (q p : String) :
    fsExistsFile (fsRemove fs q) p = (decide (p ≠ q) && fsExistsFile fs p) := by
  by_cases h : p = q
  · subst h
    simp only [ne_eq, not_true_eq_false, decide_False, Bool.false_and]
    unfold fsExistsFile fsRemove
    simp [List.any_eq_true, List.mem_filter]
  · simp only [ne_eq, h, not_false_iff, decide_True, Bool.true_and]
    unfold fsExistsFile fsRemove
    apply Bool.eq_iff_iff.mpr
    simp only [List.any_eq_true, List.mem_filter, decide_eq_true_eq]
    constructor
    · rintro ⟨x, ⟨hx, _⟩, hxp⟩; exact ⟨x, hx, hxp⟩
    · rintro ⟨x, hx, hxp⟩
      exact ⟨x, ⟨hx, by simp [hxp, h]⟩, hxp⟩

theorem fsSize_fsWrite_self (fs : FS) (p : String) (n : Nat) :
    fsSize (fsWrite fs p n) p = some n := by
  simp [fsSize, fsWrite, List.find?]

theorem fsSize_pos_of_allPos (fs : FS) (p : String) (h : fsAllPos fs)
    (hex : fsExistsFile fs p = true) : ∃ n, fsSize fs p = some n ∧ 0 < n := by
  obtain ⟨n, hmem⟩ := (fsExistsFile_iff fs p).mp hex
  unfold fsSize
  obtain ⟨x, hfind⟩ : ∃ x, fs.files.find? (fun q => decide (q.1 = p)) = some x := by
    cases hfd : fs.files.find? (fun q => decide (q.1 = p)) with
    | none =>
      exact absurd (List.find?_eq_none.mp hfd _ hmem) (by simp)
    | some x => exact ⟨x, rfl⟩
  refine ⟨x.2, by rw [hfind]; rfl, ?_⟩
  have hx := List.find?_some hfind
  have hxmem := List.mem_of_find?_eq_some hfind
  have : x.1 = p := by simpa using hx
  exact h x.1 x.2 (by simpa using hxmem)

theorem fsAllPos_ensureDir (fs : FS) (d : String) (h : fsAllPos fs) :
    fsAllPos (ensureDir fs d) := by
  intro q n hmem
  rw [ensureDir_files] at hmem
  exact h q n hmem

theorem fsAllPos_fsWrite (fs : FS) (p : String) (n : Nat) (hn : 0 < n)
    (h : fsAllPos fs) : fsAllPos (fsWrite fs p n) := by
  intro q m hmem
  simp only [fsWrite, List.mem_cons, List.mem_filter] at hmem
  rcases hmem with heq | ⟨hmem, _⟩
  · cases heq; exact hn
  · exact h q m hmem

theorem fsAllPos_fsRemove (fs : FS) (p : String) (h : fsAllPos fs) :
    fsAllPos (fsRemove fs p) := by
  intro q m hmem
  simp only [fsRemove, List.mem_filter] at hmem
  exact h q m hmem.1

theorem mem_fsWrite_files (fs : FS) (p q : String) (n m : Nat)
    (h : (q, m) ∈ (fsWrite fs p n).files) : (q, m) ∈ fs.files ∨ q = p := by
  simp only [fsWrite, List.mem_cons, List.mem_filter] at h
  rcases h with heq | ⟨hmem, _⟩
  · cases heq; exact Or.inr rfl
  · exact Or.inl hmem

theorem mem_fsRemove_files (fs : FS) (p q : String) (m : Nat)
    (h : (q, m) ∈ (fsRemove fs p).files) : (q, m) ∈ fs.files := by
  simp only [fsRemove, List.mem_filter] at h
  exact h.1

/-! ## Path lemmas -/

theorem rfindAux_some (c : Char) (cs : List Char) (i : Nat) (a : Nat) :
    ∃ b, rfindAux c cs i (some a) = some b := by
  induction cs generalizing i a with
  | nil => exact ⟨a, rfl⟩
  | cons x xs ih =>
    unfold rfindAux
    split <;> exact ih _ _

theorem rfindAux_none_iff (c : Char) (cs : List Char) (i : Nat) :
    rfindAux c cs i none = none ↔ c ∉ cs := by
  induction cs generalizing i with
  | nil => simp [rfindAux]
  | cons x xs ih =>
    unfold rfindAux
    by_cases hx : x = c
    · simp only [if_pos hx]
      obtain ⟨b, hb⟩ := rfindAux_some c xs (i + 1) i
      simp [hb, hx]
    · simp only [if_neg hx]
      rw [ih]
      constructor
      · intro h hmem
        rcases List.mem_cons.mp hmem with h1 | h1
        · exact hx h1.symm
        · exact h h1
      · intro h hmem
        exact h (List.mem_cons_of_mem x hmem)

theorem rfind_eq_none_iff (cs : List Char) (c : Char) :
    rfind cs c = none ↔ c ∉ cs := rfindAux_none_iff c cs 0

theorem pyDirname_eq_empty_iff (p : String) :
    pyDirname p = "" ↔ '/' ∉ p.data := by
  rw [← rfind_eq_none_iff]
  unfold pyDirname
  rcases hr : rfind p.data '/' with _ | i
  · simp
  · simp only [hr]
    constructor
    · intro h
      exfalso
      have hne : p.data ≠ [] := by
        intro hnil
        rw [hnil] at hr
        simp [rfind, rfindAux] at hr
      split at h
      · rename_i hall
        have : p.data.take (i + 1) ≠ [] := by
          simp [List.take_eq_nil_iff, hne]
        exact this (by simpa [String.ext_iff] using h)
      · rename_i hall
        simp only [List.all_eq_true, decide_eq_true_eq] at hall
        push_neg at hall
        obtain ⟨x, hxmem, hx⟩ := hall
        have hdw : (p.data.take (i + 1)).reverse.dropWhile (fun x => decide (x = '/')) ≠ [] := by
          rw [ne_eq, List.dropWhile_eq_nil_iff]
          push_neg
          exact ⟨x, by simpa using hxmem, by simpa using hx⟩
        have : ((p.data.take (i + 1)).reverse.dropWhile (fun x => decide (x = '/'))).reverse ≠ [] := by
          simpa using hdw
        exact this (by simpa [String.ext_iff] using h)
    · intro h
      exact absurd h (by simp)

theorem splitext_eq_or (p : String) :
    splitext p = (p, "") ∨
      ∃ d, splitext p = (String.mk (p.data.take d), String.mk (p.data.drop d)) := by
  unfold splitext
  rcases hr : rfind p.data '.' with _ | d
  · exact Or.inl rfl
  · simp only
    split
    · split
      · exact Or.inl rfl
      · exact Or.inr ⟨d, rfl⟩
    · exact Or.inl rfl

theorem splitext_fst_append_snd (p : String) :
    (splitext p).1 ++ (splitext p).2 = p := by
  rcases splitext_eq_or p with h | ⟨d, h⟩ <;> rw [h]
  · show String.mk (p.data ++ []) = p
    rw [List.append_nil]
  · show String.mk (p.data.take d ++ p.data.drop d) = p
    rw [List.take_append_drop]

theorem mem_splitext_fst_data (p : String) (a : Char)
    (h : a ∈ (splitext p).1.data) : a ∈ p.data := by
  rcases splitext_eq_or p with heq | ⟨d, heq⟩ <;> rw [heq] at h
  · exact h
  · exact List.mem_of_mem_take (by simpa using h)

theorem change_ext_data (p ext : String) :
    (change_ext p ext).data = (splitext p).1.data ++ ext.data := by
  unfold change_ext
  exact String.data_append _ _

theorem suffix_change_ext (p ext : String) :
    ext.data <:+ (change_ext p ext).data := by
  rw [change_ext_data]
  exact List.suffix_append _ _

theorem change_ext_ne (p e₁ e₂ : String) (h : e₁ ≠ e₂) :
    change_ext p e₁ ≠ change_ext p e₂ := by
  intro heq
  apply h
  have hd : (change_ext p e₁).data = (change_ext p e₂).data := by rw [heq]
  rw [change_ext_data, change_ext_data] at hd
  have := List.append_cancel_left hd
  exact String.ext this

theorem mem_change_ext_data (p ext : String) (a : Char)
    (h : a ∈ (change_ext p ext).data) : a ∈ p.data ∨ a ∈ ext.data := by
  rw [change_ext_data, List.mem_append] at h
  rcases h with h | h
  · exact Or.inl (mem_splitext_fst_data p a h)
  · exact Or.inr h

/-! ## Lemmas about the conversion helper -/

theorem which_ffmpeg (e : Env) : which e "ffmpeg" = e.ffmpegOnPath := rfl

theorem which_say (e : Env) : which e "say" = e.sayOnPath := rfl

theorem which_afconvert (e : Env) : which e "afconvert" = e.afconvertOnPath := rfl

theorem which_espeak_ng (e : Env) : which e "espeak-ng" = e.espeakNgOnPath := rfl

theorem which_espeak (e : Env) : which e "espeak" = e.espeakOnPath := rfl

/-- Exhaustive description of `_convert_with_ffmpeg`'s behaviour. -/
theorem convert_spec (e : Env) (fs : FS) (src dst : String) :
    (e.ffmpegOnPath = false ∧ convert_with_ffmpeg e fs src dst = (none, fs, []))
    ∨ (e.ffmpegOnPath = true ∧ e.ffmpegRunOk = false ∧
        convert_with_ffmpeg e fs src dst =
          (none, fs, [Event.subprocessRun (ffmpegCmd src dst)]))
    ∨ (e.ffmpegOnPath = true ∧ e.ffmpegRunOk = true ∧ e.ffmpegCreatesDst = true ∧
        convert_with_ffmpeg e fs src dst =
          (some dst, fsWrite fs dst e.ffmpegBytes,
            [Event.subprocessRun (ffmpegCmd src dst)]))
    ∨ (e.ffmpegOnPath = true ∧ e.ffmpegRunOk = true ∧ e.ffmpegCreatesDst = false ∧
        fsExistsFile fs dst = true ∧
        convert_with_ffmpeg e fs src dst =
          (some dst, fs, [Event.subprocessRun (ffmpegCmd src dst)]))
    ∨ (e.ffmpegOnPath = true ∧ e.ffmpegRunOk = true ∧ e.ffmpegCreatesDst = false ∧
        fsExistsFile fs dst = false ∧
        convert_with_ffmpeg e fs src dst =
          (none, fs, [Event.subprocessRun (ffmpegCmd src dst)])) := by
  by_cases h1 : e.ffmpegOnPath
  case neg =>
    exact Or.inl ⟨by simp [h1], by simp [convert_with_ffmpeg, which_ffmpeg, h1]⟩
  by_cases h2 : e.ffmpegRunOk
  case neg =>
    exact Or.inr (Or.inl ⟨h1, by simp [h2],
      by simp [convert_with_ffmpeg, which_ffmpeg, h1, h2]⟩)
  by_cases h3 : e.ffmpegCreatesDst
  case pos =>
    refine Or.inr (Or.inr (Or.inl ⟨h1, h2, h3, ?_⟩))
    have hex : fsExistsFile (fsWrite fs dst e.ffmpegBytes) dst = true := by
      rw [fsExistsFile_fsWrite]; simp
    simp [convert_with_ffmpeg, which_ffmpeg, h1, h2, h3, hex]
  by_cases h4 : fsExistsFile fs dst
  · exact Or.inr (Or.inr (Or.inr (Or.inl ⟨h1, h2, by simp [h3], h4,
      by simp [convert_with_ffmpeg, which_ffmpeg, h1, h2, h3, h4]⟩)))
  · exact Or.inr (Or.inr (Or.inr (Or.inr ⟨h1, h2, by simp [h3], by simp [h4],
      by simp [convert_with_ffmpeg, which_ffmpeg, h1, h2, h3, h4]⟩)))

theorem convert_none_fs (e : Env) (fs : FS) (src dst : String)
    (h : (convert_with_ffmpeg e fs src dst).1 = none) :
    (convert_with_ffmpeg e fs src dst).2.1 = fs := by
  rcases convert_spec e fs src dst with ⟨_, hc⟩ | ⟨_, _, hc⟩ | ⟨_, _, _, hc⟩
    | ⟨_, _, _, _, hc⟩ | ⟨_, _, _, _, hc⟩ <;> rw [hc] at h ⊢ <;> simp_all

theorem convert_some_eq (e : Env) (fs : FS) (src dst x : String)
    (h : (convert_with_ffmpeg e fs src dst).1 = some x) : x = dst := by
  rcases convert_spec e fs src dst with ⟨_, hc⟩ | ⟨_, _, hc⟩ | ⟨_, _, _, hc⟩
    | ⟨_, _, _, _, hc⟩ | ⟨_, _, _, _, hc⟩ <;> rw [hc] at h <;> simp_all

theorem convert_some_exists (e : Env) (fs : FS) (src dst x : String)
    (h : (convert_with_ffmpeg e fs src dst).1 = some x) :
    fsExistsFile (convert_with_ffmpeg e fs src dst).2.1 dst = true := by
  rcases convert_spec e fs src dst with ⟨_, hc⟩ | ⟨_, _, hc⟩ | ⟨_, _, _, hc⟩
    | ⟨_, _, _, h4, hc⟩ | ⟨_, _, _, _, hc⟩ <;> rw [hc] at h ⊢ <;>
    simp_all [fsExistsFile_fsWrite]

theorem convert_allPos (e : Env) (fs : FS) (src dst : String)
    (hb : 0 < e.ffmpegBytes) (h : fsAllPos fs) :
    fsAllPos (convert_with_ffmpeg e fs src dst).2.1 := by
  rcases convert_spec e fs src dst with ⟨_, hc⟩ | ⟨_, _, hc⟩ | ⟨_, _, _, hc⟩
    | ⟨_, _, _, _, hc⟩ | ⟨_, _, _, _, hc⟩ <;> rw [hc] <;>
    first
      | exact h
      | exact fsAllPos_fsWrite fs dst e.ffmpegBytes hb h

theorem convert_files_subset (e : Env) (fs : FS) (src dst q : String) (m : Nat)
    (h : (q, m) ∈ (convert_with_ffmpeg e fs src dst).2.1.files) :
    (q, m) ∈ fs.files ∨ q = dst := by
  rcases convert_spec e fs src dst with ⟨_, hc⟩ | ⟨_, _, hc⟩ | ⟨_, _, _, hc⟩
    | ⟨_, _, _, _, hc⟩ | ⟨_, _, _, _, hc⟩ <;> rw [hc] at h <;>
    first
      | exact Or.inl h
      | exact mem_fsWrite_files fs dst q e.ffmpegBytes m h

theorem convert_all_ok (e : Env) (fs : FS) (src dst : String)
    (h1 : e.ffmpegOnPath = true) (h2 : e.ffmpegRunOk = true)
    (h3 : e.ffmpegCreatesDst = true) :
    convert_with_ffmpeg e fs src dst =
      (some dst, fsWrite fs dst e.ffmpegBytes,
        [Event.subprocessRun (ffmpegCmd src dst)]) := by
  rcases convert_spec e fs src dst with ⟨hh, hc⟩ | ⟨_, hh, hc⟩ | ⟨_, _, _, hc⟩
    | ⟨_, _, hh, _, hc⟩ | ⟨_, _, hh, _, hc⟩ <;> simp_all

theorem convert_no_ffmpeg (e : Env) (fs : FS) (src dst : String)
    (h : e.ffmpegOnPath = false) :
    convert_with_ffmpeg e fs src dst = (none, fs, []) := by
  rcases convert_spec e fs src dst with ⟨_, hc⟩ | ⟨hh, _, hc⟩ | ⟨hh, _, _, hc⟩
    | ⟨hh, _, _, _, hc⟩ | ⟨hh, _, _, _, hc⟩ <;> simp_all

/-! ## Stage specifications -/

theorem fsWrite_dirs (fs : FS) (p : String) (n : Nat) :
    (fsWrite fs p n).dirs = fs.dirs := rfl

theorem fsRemove_dirs (fs : FS) (p : String) : (fsRemove fs p).dirs = fs.dirs := rfl

theorem mp3_ne_wav (p : String) : change_ext p ".mp3" ≠ change_ext p ".wav" :=
  change_ext_ne p ".mp3" ".wav" (by decide)

theorem mp3_ne_aiff (p : String) : change_ext p ".mp3" ≠ change_ext p ".aiff" :=
  change_ext_ne p ".mp3" ".aiff" (by decide)

theorem m4a_ne_aiff (p : String) : change_ext p ".m4a" ≠ change_ext p ".aiff" :=
  change_ext_ne p ".m4a" ".aiff" (by decide)

/-- What a stage returns when it (or a later stage) succeeds: an `ok` path from
the candidate set that exists in the final file system, with all frame
conditions. -/
def stageOk (c : Ctx) (fs : FS) (r : TTSResult) : Prop :=
  ∃ q fs' ev', r = (.ok q, fs', ev') ∧
    q ∈ pathCandidates c.output_filepath ∧
    fsExistsFile fs' q = true ∧
    fs'.dirs = fs.dirs ∧
    (fsAllPos fs → envBytesPos c.env → fsAllPos fs') ∧
    (∀ q₂ m, (q₂, m) ∈ fs'.files → (q₂, m) ∈ fs.files ∨
      q₂ ∈ pathCandidates c.output_filepath)

theorem convert_eq_some_facts (e : Env) (fs : FS) (src dst x : String) (fs2 : FS)
    (ev2 : List Event)
    (heq : convert_with_ffmpeg e fs src dst = (some x, fs2, ev2)) :
    x = dst ∧ fsExistsFile fs2 dst = true ∧ fs2.dirs = fs.dirs ∧
      (0 < e.ffmpegBytes → fsAllPos fs → fsAllPos fs2) ∧
      (∀ q m, (q, m) ∈ fs2.files → (q, m) ∈ fs.files ∨ q = dst) := by
  have h1 : (convert_with_ffmpeg e fs src dst).1 = some x := by rw [heq]
  have h21 : (convert_with_ffmpeg e fs src dst).2.1 = fs2 := by rw [heq]
  refine ⟨convert_some_eq e fs src dst x h1, ?_, ?_, ?_, ?_⟩
  · have := convert_some_exists e fs src dst x h1
    rwa [h21] at this
  · rcases convert_spec e fs src dst with ⟨_, hc⟩ | ⟨_, _, hc⟩ | ⟨_, _, _, hc⟩
      | ⟨_, _, _, _, hc⟩ | ⟨_, _, _, _, hc⟩ <;> rw [hc] at h21 <;> rw [← h21] <;> rfl
  · intro hb hfs
    have := convert_allPos e fs src dst hb hfs
    rwa [h21] at this
  · intro q m hm
    exact convert_files_subset e fs src dst q m (h21 ▸ hm)

theorem convert_eq_none_facts (e : Env) (fs : FS) (src dst : String) (fs2 : FS)
    (ev2 : List Event)
    (heq : convert_with_ffmpeg e fs src dst = (none, fs2, ev2)) : fs2 = fs := by
  have h1 : (convert_with_ffmpeg e fs src dst).1 = none := by rw [heq]
  have h21 : (convert_with_ffmpeg e fs src dst).2.1 = fs2 := by rw [heq]
  rw [← h21]
  exact convert_none_fs e fs src dst h1

theorem windowsStage_spec (c : Ctx) (fs : FS) (ev : List Event) :
    (backendCWinSucceeds c.env fs c.output_filepath = false ∧
      ∃ ev₂, windowsStage c fs ev = (.error (.runtimeError noBackendMessage), fs, ev₂))
    ∨ (backendCWinSucceeds c.env fs c.output_filepath = true ∧
      stageOk c fs (windowsStage c fs ev)) := by
  obtain ⟨res, hres⟩ : ∃ r, windowsStage c fs ev = r := ⟨_, rfl⟩
  rw [hres]
  simp only [windowsStage, noBackendResult] at hres
  split at hres
  case isFalse hw =>
    subst hres
    have hw' : pyStartsWith c.env.sysPlatform "win" = false := by simpa using hw
    exact Or.inl ⟨by simp [backendCWinSucceeds, hw'], ev, rfl⟩
  case isTrue hw =>
  split at hres
  case isFalse hr =>
    subst hres
    have hr' : c.env.powershellRunOk = false := by simpa using hr
    exact Or.inl ⟨by simp [backendCWinSucceeds, hr'], _, rfl⟩
  case isTrue hr =>
  cases hcw : c.env.powershellCreatesWav
  · -- pyttsx3-style: no fresh write; everything depends on a stale wav file
    simp only [hcw, Bool.false_eq_true, if_false] at hres
    cases hex : fsExistsFile fs (change_ext c.output_filepath ".wav")
    · rw [hex] at hres
      simp only [Bool.false_and] at hres
      subst hres
      exact Or.inl ⟨by simp [backendCWinSucceeds, hcw, hex], _, rfl⟩
    · rw [hex] at hres
      simp only [Bool.true_and] at hres
      have hS : backendCWinSucceeds c.env fs c.output_filepath = true := by
        simp [backendCWinSucceeds, hw, hr, hex]
      split at hres
      · -- mp3 requested: try the converter
        split at hres
        · rename_i x fs2 ev2 heq
          obtain ⟨hx, hex2, hdirs2, hpos2, hsub2⟩ :=
            convert_eq_some_facts _ _ _ _ _ _ _ heq
          subst hres
          refine Or.inr ⟨hS, _, _, _, rfl, by simp [pathCandidates], ?_, ?_, ?_, ?_⟩
          · rw [fsExistsFile_fsRemove, hex2]
            simp [(mp3_ne_wav c.output_filepath)]
          · rw [fsRemove_dirs, hdirs2]
          · intro hfs hb
            exact fsAllPos_fsRemove _ _ (hpos2 hb.2.2.2.2.1 hfs)
          · intro q₂ m hm
            rcases hsub2 q₂ m (mem_fsRemove_files _ _ _ _ hm) with h | h
            · exact Or.inl h
            · exact Or.inr (by simp [pathCandidates, h])
        · rename_i fs2 ev2 heq
          have hf2 : fs2 = fs := convert_eq_none_facts _ _ _ _ _ _ heq
          subst hf2
          rw [hex] at hres
          simp only [if_pos rfl] at hres
          subst hres
          exact Or.inr ⟨hS, _, _, _, rfl, by simp [pathCandidates], hex, rfl,
            fun hfs _ => hfs, fun q₂ m hm => Or.inl hm⟩
      · -- a different extension was requested: the wav is returned as-is
        subst hres
        exact Or.inr ⟨hS, _, _, _, rfl, by simp [pathCandidates], hex, rfl,
          fun hfs _ => hfs, fun q₂ m hm => Or.inl hm⟩
  · -- PowerShell wrote the wav file
    simp only [hcw, if_true] at hres
    have hS : backendCWinSucceeds c.env fs c.output_filepath = true := by
      simp [backendCWinSucceeds, hw, hr, hcw]
    have hexW : fsExistsFile (fsWrite fs (change_ext c.output_filepath ".wav")
        c.env.powershellBytes) (change_ext c.output_filepath ".wav") = true := by
      rw [fsExistsFile_fsWrite]; simp
    rw [hexW] at hres
    simp only [Bool.true_and] at hres
    split at hres
    · -- mp3 requested: try the converter on the fresh wav
      split at hres
      · rename_i x fs2 ev2 heq
        obtain ⟨hx, hex2, hdirs2, hpos2, hsub2⟩ :=
          convert_eq_some_facts _ _ _ _ _ _ _ heq
        subst hres
        refine Or.inr ⟨hS, _, _, _, rfl, by simp [pathCandidates], ?_, ?_, ?_, ?_⟩
        · rw [fsExistsFile_fsRemove, hex2]
          simp [(mp3_ne_wav c.output_filepath)]
        · rw [fsRemove_dirs, hdirs2, fsWrite_dirs]
        · intro hfs hb
          exact fsAllPos_fsRemove _ _
            (hpos2 hb.2.2.2.2.1 (fsAllPos_fsWrite _ _ _ hb.2.2.2.2.2.2 hfs))
        · intro q₂ m hm
          rcases hsub2 q₂ m (mem_fsRemove_files _ _ _ _ hm) with h | h
          · rcases mem_fsWrite_files _ _ _ _ _ h with h' | h'
            · exact Or.inl h'
            · exact Or.inr (by simp [pathCandidates, h'])
          · exact Or.inr (by simp [pathCandidates, h])
      · rename_i fs2 ev2 heq
        have hf2 : fs2 = fsWrite fs (change_ext c.output_filepath ".wav")
            c.env.powershellBytes := convert_eq_none_facts _ _ _ _ _ _ heq
        subst hf2
        rw [hexW] at hres
        simp only [if_pos rfl] at hres
        subst hres
        refine Or.inr ⟨hS, _, _, _, rfl, by simp [pathCandidates], hexW,
          fsWrite_dirs _ _ _, ?_, ?_⟩
        · intro hfs hb
          exact fsAllPos_fsWrite _ _ _ hb.2.2.2.2.2.2 hfs
        · intro q₂ m hm
          rcases mem_fsWrite_files _ _ _ _ _ hm with h | h
          · exact Or.inl h
          · exact Or.inr (by simp [pathCandidates, h])
    · -- a different extension was requested: the fresh wav is returned as-is
      subst hres
      refine Or.inr ⟨hS, _, _, _, rfl, by simp [pathCandidates], hexW,
        fsWrite_dirs _ _ _, ?_, ?_⟩
      · intro hfs hb
        exact fsAllPos_fsWrite _ _ _ hb.2.2.2.2.2.2 hfs
      · intro q₂ m hm
        rcases mem_fsWrite_files _ _ _ _ _ hm with h | h
        · exact Or.inl h
        · exact Or.inr (by simp [pathCandidates, h])

theorem linuxStage_spec (c : Ctx) (fs : FS) (ev : List Event) :
    ((backendCLinuxSucceeds c.env
        || backendCWinSucceeds c.env fs c.output_filepath) = false ∧
      ∃ ev₂, linuxStage c fs ev = (.error (.runtimeError noBackendMessage), fs, ev₂))
    ∨ ((backendCLinuxSucceeds c.env
        || backendCWinSucceeds c.env fs c.output_filepath) = true ∧
      stageOk c fs (linuxStage c fs ev)) := by
  obtain ⟨res, hres⟩ : ∃ r, linuxStage c fs ev = r := ⟨_, rfl⟩
  rw [hres]
  simp only [linuxStage] at hres
  split at hres
  case isFalse hg =>
    have hCL : backendCLinuxSucceeds c.env = false := by
      rw [Bool.not_eq_true] at hg
      rw [which_espeak_ng, which_espeak] at hg
      cases h1 : pyStartsWith c.env.sysPlatform "linux" <;>
        cases h2 : (c.env.espeakNgOnPath || c.env.espeakOnPath) <;>
        simp_all [backendCLinuxSucceeds]
    rcases windowsStage_spec c fs ev with ⟨hWf, ev₂, hc⟩ | ⟨hWt, hok⟩
    · rw [hc] at hres
      subst hres
      exact Or.inl ⟨by simp [hCL, hWf], ev₂, rfl⟩
    · rw [hres] at hok
      exact Or.inr ⟨by simp [hWt], hok⟩
  case isTrue hg =>
  rw [Bool.and_eq_true] at hg
  obtain ⟨hplat, hcmd⟩ := hg
  split at hres
  case isFalse hrun =>
    have hCL : backendCLinuxSucceeds c.env = false := by
      have hrun' : c.env.espeakRunOk = false := by simpa using hrun
      simp [backendCLinuxSucceeds, hrun']
    rcases windowsStage_spec c fs
        (ev ++ [Event.subprocessRun (if which c.env "espeak-ng" = true then
          ["espeak-ng", "-w", change_ext c.output_filepath ".wav", c.text]
          else ["espeak", "-w", change_ext c.output_filepath ".wav", c.text])])
      with ⟨hWf, ev₂, hc⟩ | ⟨hWt, hok⟩
    · rw [hc] at hres
      subst hres
      exact Or.inl ⟨by simp [hCL, hWf], ev₂, rfl⟩
    · rw [hres] at hok
      exact Or.inr ⟨by simp [hWt], hok⟩
  case isTrue hrun =>
  have hS : (backendCLinuxSucceeds c.env
      || backendCWinSucceeds c.env fs c.output_filepath) = true := by
    rw [which_espeak_ng, which_espeak] at hcmd
    simp [backendCLinuxSucceeds, hplat, hcmd, hrun]
  have hexW : fsExistsFile (fsWrite fs (change_ext c.output_filepath ".wav")
      c.env.espeakBytes) (change_ext c.output_filepath ".wav") = true := by
    rw [fsExistsFile_fsWrite]; simp
  split at hres
  · -- mp3 requested: try the converter on the fresh wav
    split at hres
    · rename_i x fs2 ev2 heq
      obtain ⟨hx, hex2, hdirs2, hpos2, hsub2⟩ :=
        convert_eq_some_facts _ _ _ _ _ _ _ heq
      subst hres
      refine Or.inr ⟨hS, _, _, _, rfl, by simp [pathCandidates], ?_, ?_, ?_, ?_⟩
      · rw [fsExistsFile_fsRemove, hex2]
        simp [(mp3_ne_wav c.output_filepath)]
      · rw [fsRemove_dirs, hdirs2, fsWrite_dirs]
      · intro hfs hb
        exact fsAllPos_fsRemove _ _
          (hpos2 hb.2.2.2.2.1 (fsAllPos_fsWrite _ _ _ hb.2.2.2.2.2.1 hfs))
      · intro q₂ m hm
        rcases hsub2 q₂ m (mem_fsRemove_files _ _ _ _ hm) with h | h
        · rcases mem_fsWrite_files _ _ _ _ _ h with h' | h'
          · exact Or.inl h'
          · exact Or.inr (by simp [pathCandidates, h'])
        · exact Or.inr (by simp [pathCandidates, h])
    · rename_i fs2 ev2 heq
      have hf2 : fs2 = fsWrite fs (change_ext c.output_filepath ".wav")
          c.env.espeakBytes := convert_eq_none_facts _ _ _ _ _ _ heq
      subst hf2
      subst hres
      refine Or.inr ⟨hS, _, _, _, rfl, by simp [pathCandidates], hexW,
        fsWrite_dirs _ _ _, ?_, ?_⟩
      · intro hfs hb
        exact fsAllPos_fsWrite _ _ _ hb.2.2.2.2.2.1 hfs
      · intro q₂ m hm
        rcases mem_fsWrite_files _ _ _ _ _ hm with h | h
        · exact Or.inl h
        · exact Or.inr (by simp [pathCandidates, h])
  · -- a different extension was requested: the fresh wav is returned as-is
    subst hres
    refine Or.inr ⟨hS, _, _, _, rfl, by simp [pathCandidates], hexW,
      fsWrite_dirs _ _ _, ?_, ?_⟩
    · intro hfs hb
      exact fsAllPos_fsWrite _ _ _ hb.2.2.2.2.2.1 hfs
    · intro q₂ m hm
      rcases mem_fsWrite_files _ _ _ _ _ hm with h | h
      · exact Or.inl h
      · exact Or.inr (by simp [pathCandidates, h])

theorem macStage_spec (c : Ctx) (fs : FS) (ev : List Event) :
    ((backendCMacSucceeds c.env || (backendCLinuxSucceeds c.env
        || backendCWinSucceeds c.env fs c.output_filepath)) = false ∧
      ∃ ev₂, macStage c fs ev = (.error (.runtimeError noBackendMessage), fs, ev₂))
    ∨ ((backendCMacSucceeds c.env || (backendCLinuxSucceeds c.env
        || backendCWinSucceeds c.env fs c.output_filepath)) = true ∧
      stageOk c fs (macStage c fs ev)) := by
  obtain ⟨res, hres⟩ : ∃ r, macStage c fs ev = r := ⟨_, rfl⟩
  rw [hres]
  simp only [macStage] at hres
  split at hres
  case isFalse hg =>
    have hCM : backendCMacSucceeds c.env = false := by
      rw [Bool.not_eq_true] at hg
      rw [which_say] at hg
      cases h1 : decide (c.env.sysPlatform = "darwin") <;>
        cases h2 : c.env.sayOnPath <;> simp_all [backendCMacSucceeds]
    rcases linuxStage_spec c fs ev with ⟨hLf, ev₂, hc⟩ | ⟨hLt, hok⟩
    · rw [hc] at hres
      subst hres
      exact Or.inl ⟨by simp [hCM, hLf], ev₂, rfl⟩
    · rw [hres] at hok
      exact Or.inr ⟨by simp [hLt], hok⟩
  case isTrue hg =>
  rw [Bool.and_eq_true] at hg
  obtain ⟨hplat, hsay⟩ := hg
  split at hres
  case isFalse hrun =>
    have hCM : backendCMacSucceeds c.env = false := by
      have hrun' : c.env.sayRunOk = false := by simpa using hrun
      simp [backendCMacSucceeds, hrun']
    rcases linuxStage_spec c fs (ev ++ [Event.subprocessRun
        ["say", "-o", change_ext c.output_filepath ".aiff", c.text]])
      with ⟨hLf, ev₂, hc⟩ | ⟨hLt, hok⟩
    · rw [hc] at hres
      subst hres
      exact Or.inl ⟨by simp [hCM, hLf], ev₂, rfl⟩
    · rw [hres] at hok
      exact Or.inr ⟨by simp [hLt], hok⟩
  case isTrue hrun =>
  have hS : (backendCMacSucceeds c.env || (backendCLinuxSucceeds c.env
      || backendCWinSucceeds c.env fs c.output_filepath)) = true := by
    rw [which_say] at hsay
    simp [backendCMacSucceeds, hplat, hsay, hrun]
  have hexA : fsExistsFile (fsWrite fs (change_ext c.output_filepath ".aiff")
      c.env.sayBytes) (change_ext c.output_filepath ".aiff") = true := by
    rw [fsExistsFile_fsWrite]; simp
  split at hres
  · -- mp3 requested
    split at hres
    · -- afconvert is on the path
      split at hres
      · -- afconvert succeeded: m4a produced, aiff removed
        subst hres
        refine Or.inr ⟨hS, _, _, _, rfl, by simp [pathCandidates], ?_, ?_, ?_, ?_⟩
        · rw [fsExistsFile_fsRemove, fsExistsFile_fsWrite]
          simp [(m4a_ne_aiff c.output_filepath)]
        · rw [fsRemove_dirs, fsWrite_dirs, fsWrite_dirs]
        · intro hfs hb
          exact fsAllPos_fsRemove _ _ (fsAllPos_fsWrite _ _ _ hb.2.2.2.1
            (fsAllPos_fsWrite _ _ _ hb.2.2.1 hfs))
        · intro q₂ m hm
          rcases mem_fsWrite_files _ _ _ _ _ (mem_fsRemove_files _ _ _ _ hm)
            with h | h
          · rcases mem_fsWrite_files _ _ _ _ _ h with h' | h'
            · exact Or.inl h'
            · exact Or.inr (by simp [pathCandidates, h'])
          · exact Or.inr (by simp [pathCandidates, h])
      · -- afconvert failed: fall back to ffmpeg
        split at hres
        · rename_i x fs2 ev2 heq
          obtain ⟨hx, hex2, hdirs2, hpos2, hsub2⟩ :=
            convert_eq_some_facts _ _ _ _ _ _ _ heq
          subst hres
          refine Or.inr ⟨hS, _, _, _, rfl, by simp [pathCandidates], ?_, ?_, ?_, ?_⟩
          · rw [fsExistsFile_fsRemove, hex2]
            simp [(mp3_ne_aiff c.output_filepath)]
          · rw [fsRemove_dirs, hdirs2, fsWrite_dirs]
          · intro hfs hb
            exact fsAllPos_fsRemove _ _
              (hpos2 hb.2.2.2.2.1 (fsAllPos_fsWrite _ _ _ hb.2.2.1 hfs))
          · intro q₂ m hm
            rcases hsub2 q₂ m (mem_fsRemove_files _ _ _ _ hm) with h | h
            · rcases mem_fsWrite_files _ _ _ _ _ h with h' | h'
              · exact Or.inl h'
              · exact Or.inr (by simp [pathCandidates, h'])
            · exact Or.inr (by simp [pathCandidates, h])
        · rename_i fs2 ev2 heq
          have hf2 : fs2 = fsWrite fs (change_ext c.output_filepath ".aiff")
              c.env.sayBytes := convert_eq_none_facts _ _ _ _ _ _ heq
          subst hf2
          subst hres
          refine Or.inr ⟨hS, _, _, _, rfl, by simp [pathCandidates], hexA,
            fsWrite_dirs _ _ _, ?_, ?_⟩
          · intro hfs hb
            exact fsAllPos_fsWrite _ _ _ hb.2.2.1 hfs
          · intro q₂ m hm
            rcases mem_fsWrite_files _ _ _ _ _ hm with h | h
            · exact Or.inl h
            · exact Or.inr (by simp [pathCandidates, h])
    · -- no afconvert: go straight to ffmpeg
      split at hres
      · rename_i x fs2 ev2 heq
        obtain ⟨hx, hex2, hdirs2, hpos2, hsub2⟩ :=
          convert_eq_some_facts _ _ _ _ _ _ _ heq
        subst hres
        refine Or.inr ⟨hS, _, _, _, rfl, by simp [pathCandidates], ?_, ?_, ?_, ?_⟩
        · rw [fsExistsFile_fsRemove, hex2]
          simp [(mp3_ne_aiff c.output_filepath)]
        · rw [fsRemove_dirs, hdirs2, fsWrite_dirs]
        · intro hfs hb
          exact fsAllPos_fsRemove _ _
            (hpos2 hb.2.2.2.2.1 (fsAllPos_fsWrite _ _ _ hb.2.2.1 hfs))
        · intro q₂ m hm
          rcases hsub2 q₂ m (mem_fsRemove_files _ _ _ _ hm) with h | h
          · rcases mem_fsWrite_files _ _ _ _ _ h with h' | h'
            · exact Or.inl h'
            · exact Or.inr (by simp [pathCandidates, h'])
          · exact Or.inr (by simp [pathCandidates, h])
      · rename_i fs2 ev2 heq
        have hf2 : fs2 = fsWrite fs (change_ext c.output_filepath ".aiff")
            c.env.sayBytes := convert_eq_none_facts _ _ _ _ _ _ heq
        subst hf2
        subst hres
        refine Or.inr ⟨hS, _, _, _, rfl, by simp [pathCandidates], hexA,
          fsWrite_dirs _ _ _, ?_, ?_⟩
        · intro hfs hb
          exact fsAllPos_fsWrite _ _ _ hb.2.2.1 hfs
        · intro q₂ m hm
          rcases mem_fsWrite_files _ _ _ _ _ hm with h | h
          · exact Or.inl h
          · exact Or.inr (by simp [pathCandidates, h])
  · -- a different extension was requested: the aiff is returned as-is
    subst hres
    refine Or.inr ⟨hS, _, _, _, rfl, by simp [pathCandidates], hexA,
      fsWrite_dirs _ _ _, ?_, ?_⟩
    · intro hfs hb
      exact fsAllPos_fsWrite _ _ _ hb.2.2.1 hfs
    · intro q₂ m hm
      rcases mem_fsWrite_files _ _ _ _ _ hm with h | h
      · exact Or.inl h
      · exact Or.inr (by simp [pathCandidates, h])

theorem pyttsx3Stage_spec (c : Ctx) (fs : FS) (ev : List Event) :
    ((backendBSucceeds c.env fs c.output_filepath
        || (backendCMacSucceeds c.env || (backendCLinuxSucceeds c.env
        || backendCWinSucceeds c.env fs c.output_filepath))) = false ∧
      ∃ ev₂, pyttsx3Stage c fs ev = (.error (.runtimeError noBackendMessage), fs, ev₂))
    ∨ ((backendBSucceeds c.env fs c.output_filepath
        || (backendCMacSucceeds c.env || (backendCLinuxSucceeds c.env
        || backendCWinSucceeds c.env fs c.output_filepath))) = true ∧
      stageOk c fs (pyttsx3Stage c fs ev)) := by
  obtain ⟨res, hres⟩ : ∃ r, pyttsx3Stage c fs ev = r := ⟨_, rfl⟩
  rw [hres]
  simp only [pyttsx3Stage] at hres
  split at hres
  case isFalse himp =>
    have hB : backendBSucceeds c.env fs c.output_filepath = false := by
      have himp' : c.env.pyttsx3ImportOk = false := by simpa using himp
      simp [backendBSucceeds, himp']
    rcases macStage_spec c fs ev with ⟨hMf, ev₂, hc⟩ | ⟨hMt, hok⟩
    · rw [hc] at hres
      subst hres
      exact Or.inl ⟨by simp [hB, hMf], ev₂, rfl⟩
    · rw [hres] at hok
      exact Or.inr ⟨by simp [hMt], hok⟩
  case isTrue himp =>
  split at hres
  case isFalse hrun =>
    have hB : backendBSucceeds c.env fs c.output_filepath = false := by
      have hrun' : c.env.pyttsx3RunOk = false := by simpa using hrun
      simp [backendBSucceeds, hrun']
    rcases macStage_spec c fs (ev ++ [Event.pyttsx3Invoke c.text
        (change_ext c.output_filepath ".wav")]) with ⟨hMf, ev₂, hc⟩ | ⟨hMt, hok⟩
    · rw [hc] at hres
      subst hres
      exact Or.inl ⟨by simp [hB, hMf], ev₂, rfl⟩
    · rw [hres] at hok
      exact Or.inr ⟨by simp [hMt], hok⟩
  case isTrue hrun =>
  cases hcw : c.env.pyttsx3CreatesWav
  · -- the engine produced no file: everything depends on a stale wav
    simp only [hcw, Bool.false_eq_true, if_false] at hres
    cases hex : fsExistsFile fs (change_ext c.output_filepath ".wav")
    · rw [hex] at hres
      simp only [Bool.false_and, Bool.false_eq_true, if_false] at hres
      have hB : backendBSucceeds c.env fs c.output_filepath = false := by
        simp [backendBSucceeds, hcw, hex]
      rcases macStage_spec c fs (ev ++ [Event.pyttsx3Invoke c.text
          (change_ext c.output_filepath ".wav")]) with ⟨hMf, ev₂, hc⟩ | ⟨hMt, hok⟩
      · rw [hc] at hres
        subst hres
        exact Or.inl ⟨by simp [hB, hMf], ev₂, rfl⟩
      · rw [hres] at hok
        exact Or.inr ⟨by simp [hMt], hok⟩
    · rw [hex] at hres
      simp only [Bool.true_and] at hres
      have hS : (backendBSucceeds c.env fs c.output_filepath
          || (backendCMacSucceeds c.env || (backendCLinuxSucceeds c.env
          || backendCWinSucceeds c.env fs c.output_filepath))) = true := by
        simp [backendBSucceeds, himp, hrun, hex]
      split at hres
      · split at hres
        · rename_i x fs2 ev2 heq
          obtain ⟨hx, hex2, hdirs2, hpos2, hsub2⟩ :=
            convert_eq_some_facts _ _ _ _ _ _ _ heq
          subst hres
          refine Or.inr ⟨hS, _, _, _, rfl, by simp [pathCandidates], ?_, ?_, ?_, ?_⟩
          · rw [fsExistsFile_fsRemove, hex2]
            simp [(mp3_ne_wav c.output_filepath)]
          · rw [fsRemove_dirs, hdirs2]
          · intro hfs hb
            exact fsAllPos_fsRemove _ _ (hpos2 hb.2.2.2.2.1 hfs)
          · intro q₂ m hm
            rcases hsub2 q₂ m (mem_fsRemove_files _ _ _ _ hm) with h | h
            · exact Or.inl h
            · exact Or.inr (by simp [pathCandidates, h])
        · rename_i fs2 ev2 heq
          have hf2 : fs2 = fs := convert_eq_none_facts _ _ _ _ _ _ heq
          subst hf2
          rw [hex] at hres
          simp only [if_pos rfl] at hres
          subst hres
          exact Or.inr ⟨hS, _, _, _, rfl, by simp [pathCandidates], hex, rfl,
            fun hfs _ => hfs, fun q₂ m hm => Or.inl hm⟩
      · subst hres
        exact Or.inr ⟨hS, _, _, _, rfl, by simp [pathCandidates], hex, rfl,
          fun hfs _ => hfs, fun q₂ m hm => Or.inl hm⟩
  · -- the engine wrote the wav file
    simp only [hcw, if_true] at hres
    have hS : (backendBSucceeds c.env fs c.output_filepath
        || (backendCMacSucceeds c.env || (backendCLinuxSucceeds c.env
        || backendCWinSucceeds c.env fs c.output_filepath))) = true := by
      simp [backendBSucceeds, himp, hrun, hcw]
    have hexW : fsExistsFile (fsWrite fs (change_ext c.output_filepath ".wav")
        c.env.pyttsx3Bytes) (change_ext c.output_filepath ".wav") = true := by
      rw [fsExistsFile_fsWrite]; simp
    rw [hexW] at hres
    simp only [Bool.true_and] at hres
    split at hres
    · split at hres
      · rename_i x fs2 ev2 heq
        obtain ⟨hx, hex2, hdirs2, hpos2, hsub2⟩ :=
          convert_eq_some_facts _ _ _ _ _ _ _ heq
        subst hres
        refine Or.inr ⟨hS, _, _, _, rfl, by simp [pathCandidates], ?_, ?_, ?_, ?_⟩
        · rw [fsExistsFile_fsRemove, hex2]
          simp [(mp3_ne_wav c.output_filepath)]
        · rw [fsRemove_dirs, hdirs2, fsWrite_dirs]
        · intro hfs hb
          exact fsAllPos_fsRemove _ _
            (hpos2 hb.2.2.2.2.1 (fsAllPos_fsWrite _ _ _ hb.2.1 hfs))
        · intro q₂ m hm
          rcases hsub2 q₂ m (mem_fsRemove_files _ _ _ _ hm) with h | h
          · rcases mem_fsWrite_files _ _ _ _ _ h with h' | h'
            · exact Or.inl h'
            · exact Or.inr (by simp [pathCandidates, h'])
          · exact Or.inr (by simp [pathCandidates, h])
      · rename_i fs2 ev2 heq
        have hf2 : fs2 = fsWrite fs (change_ext c.output_filepath ".wav")
            c.env.pyttsx3Bytes := convert_eq_none_facts _ _ _ _ _ _ heq
        subst hf2
        rw [hexW] at hres
        simp only [if_pos rfl] at hres
        subst hres
        refine Or.inr ⟨hS, _, _, _, rfl, by simp [pathCandidates], hexW,
          fsWrite_dirs _ _ _, ?_, ?_⟩
        · intro hfs hb
          exact fsAllPos_fsWrite _ _ _ hb.2.1 hfs
        · intro q₂ m hm
          rcases mem_fsWrite_files _ _ _ _ _ hm with h | h
          · exact Or.inl h
          · exact Or.inr (by simp [pathCandidates, h])
    · subst hres
      refine Or.inr ⟨hS, _, _, _, rfl, by simp [pathCandidates], hexW,
        fsWrite_dirs _ _ _, ?_, ?_⟩
      · intro hfs hb
        exact fsAllPos_fsWrite _ _ _ hb.2.1 hfs
      · intro q₂ m hm
        rcases mem_fsWrite_files _ _ _ _ _ hm with h | h
        · exact Or.inl h
        · exact Or.inr (by simp [pathCandidates, h])

theorem gttsStage_spec (c : Ctx) (fs : FS) (ev : List Event) :
    ((backendASucceeds c.env || (backendBSucceeds c.env fs c.output_filepath
        || (backendCMacSucceeds c.env || (backendCLinuxSucceeds c.env
        || backendCWinSucceeds c.env fs c.output_filepath)))) = false ∧
      ∃ ev₂, gttsStage c fs ev = (.error (.runtimeError noBackendMessage), fs, ev₂))
    ∨ ((backendASucceeds c.env || (backendBSucceeds c.env fs c.output_filepath
        || (backendCMacSucceeds c.env || (backendCLinuxSucceeds c.env
        || backendCWinSucceeds c.env fs c.output_filepath)))) = true ∧
      stageOk c fs (gttsStage c fs ev)) := by
  obtain ⟨res, hres⟩ : ∃ r, gttsStage c fs ev = r := ⟨_, rfl⟩
  rw [hres]
  simp only [gttsStage] at hres
  split at hres
  case isFalse himp =>
    have hA : backendASucceeds c.env = false := by
      have himp' : c.env.gttsImportOk = false := by simpa using himp
      simp [backendASucceeds, himp']
    rcases pyttsx3Stage_spec c fs ev with ⟨hPf, ev₂, hc⟩ | ⟨hPt, hok⟩
    · rw [hc] at hres
      subst hres
      exact Or.inl ⟨by simp [hA, hPf], ev₂, rfl⟩
    · rw [hres] at hok
      exact Or.inr ⟨by simp [hPt], hok⟩
  case isTrue himp =>
  split at hres
  case isFalse hsave =>
    have hA : backendASucceeds c.env = false := by
      have hsave' : c.env.gttsSaveOk = false := by simpa using hsave
      simp [backendASucceeds, hsave']
    rcases pyttsx3Stage_spec c fs (ev ++ [Event.gttsSave
        (if decide (c.requested_ext = ".mp3") = true then c.output_filepath
          else change_ext c.output_filepath ".mp3")]) with ⟨hPf, ev₂, hc⟩ | ⟨hPt, hok⟩
    · rw [hc] at hres
      subst hres
      exact Or.inl ⟨by simp [hA, hPf], ev₂, rfl⟩
    · rw [hres] at hok
      exact Or.inr ⟨by simp [hPt], hok⟩
  case isTrue hsave =>
  have hS : (backendASucceeds c.env || (backendBSucceeds c.env fs c.output_filepath
      || (backendCMacSucceeds c.env || (backendCLinuxSucceeds c.env
      || backendCWinSucceeds c.env fs c.output_filepath)))) = true := by
    simp [backendASucceeds, himp, hsave]
  cases hreq : decide (c.requested_ext = ".mp3")
  · rw [hreq] at hres
    simp only [Bool.false_eq_true, if_false] at hres
    subst hres
    refine Or.inr ⟨hS, _, _, _, rfl, by simp [pathCandidates], ?_,
      fsWrite_dirs _ _ _, ?_, ?_⟩
    · rw [fsExistsFile_fsWrite]; simp
    · intro hfs hb
      exact fsAllPos_fsWrite _ _ _ hb.1 hfs
    · intro q₂ m hm
      rcases mem_fsWrite_files _ _ _ _ _ hm with h | h
      · exact Or.inl h
      · exact Or.inr (by simp [pathCandidates, h])
  · rw [hreq] at hres
    simp only [if_true] at hres
    subst hres
    refine Or.inr ⟨hS, _, _, _, rfl, by simp [pathCandidates], ?_,
      fsWrite_dirs _ _ _, ?_, ?_⟩
    · rw [fsExistsFile_fsWrite]; simp
    · intro hfs hb
      exact fsAllPos_fsWrite _ _ _ hb.1 hfs
    · intro q₂ m hm
      rcases mem_fsWrite_files _ _ _ _ _ hm with h | h
      · exact Or.inl h
      · exact Or.inr (by simp [pathCandidates, h])

theorem backendBSucceeds_ensureDir (e : Env) (fs : FS) (d p : String) :
    backendBSucceeds e (ensureDir fs d) p = backendBSucceeds e fs p := by
  simp [backendBSucceeds, fsExistsFile_ensureDir]

theorem backendCWinSucceeds_ensureDir (e : Env) (fs : FS) (d p : String) :
    backendCWinSucceeds e (ensureDir fs d) p = backendCWinSucceeds e fs p := by
  simp [backendCWinSucceeds, fsExistsFile_ensureDir]

theorem anyBackendSucceeds_ensureDir (e : Env) (fs : FS) (d p : String) :
    anyBackendSucceeds e (ensureDir fs d) p = anyBackendSucceeds e fs p := by
  simp [anyBackendSucceeds, backendBSucceeds_ensureDir, backendCWinSucceeds_ensureDir]

theorem anyBackendSucceeds_eq_chain (e : Env) (fs : FS) (p : String) :
    anyBackendSucceeds e fs p = (backendASucceeds e || (backendBSucceeds e fs p
      || (backendCMacSucceeds e || (backendCLinuxSucceeds e
      || backendCWinSucceeds e fs p)))) := by
  simp [anyBackendSucceeds, Bool.or_assoc]

theorem mem_ensureDir_dirs (fs : FS) (d : String) : d ∈ (ensureDir fs d).dirs := by
  unfold ensureDir
  split
  · assumption
  · exact List.mem_cons_self d fs.dirs

/-- Exhaustive description of `generate_tts`: blank input, directory-creation
failure, chain exhaustion, or success with an existing file from the candidate
set and full frame conditions. -/
theorem generate_tts_spec (e : Env) (fs0 : FS) (text p : String) :
    (pyBlank text = true ∧
      generate_tts e fs0 text p = (.error (.valueError "Text is empty."), fs0, []))
    ∨ (pyBlank text = false ∧ e.mkdirOk = false ∧
      generate_tts e fs0 text p = (.error .osError, fs0, []))
    ∨ (pyBlank text = false ∧ e.mkdirOk = true ∧
      anyBackendSucceeds e fs0 p = false ∧
      ∃ ev₂, generate_tts e fs0 text p =
        (.error (.runtimeError noBackendMessage), ensureDir fs0 (outDirOf p), ev₂))
    ∨ (pyBlank text = false ∧ e.mkdirOk = true ∧
      anyBackendSucceeds e fs0 p = true ∧
      ∃ q fs' ev', generate_tts e fs0 text p = (.ok q, fs', ev') ∧
        q ∈ pathCandidates p ∧ fsExistsFile fs' q = true ∧
        fs'.dirs = (ensureDir fs0 (outDirOf p)).dirs ∧
        (fsAllPos fs0 → envBytesPos e → fsAllPos fs') ∧
        (∀ q₂ m, (q₂, m) ∈ fs'.files → (q₂, m) ∈ fs0.files ∨
          q₂ ∈ pathCandidates p)) := by
  obtain ⟨res, hres⟩ : ∃ r, generate_tts e fs0 text p = r := ⟨_, rfl⟩
  rw [hres]
  simp only [generate_tts] at hres
  split at hres
  case isTrue hb =>
    subst hres
    exact Or.inl ⟨hb, rfl⟩
  case isFalse hb =>
  have hb' : pyBlank text = false := by simpa using hb
  split at hres
  case isTrue hm =>
    subst hres
    exact Or.inr (Or.inl ⟨hb', by simpa using hm, rfl⟩)
  case isFalse hm =>
  have hm' : e.mkdirOk = true := by simpa using hm
  rcases gttsStage_spec ⟨e, text, p, requestedExtOf p⟩
      (ensureDir fs0 (outDirOf p)) [] with ⟨hSf, ev₂, hc⟩ | ⟨hSt, hok⟩
  · rw [hc] at hres
    subst hres
    have hany : anyBackendSucceeds e fs0 p = false := by
      rw [← anyBackendSucceeds_ensureDir e fs0 (outDirOf p) p,
        anyBackendSucceeds_eq_chain]
      exact hSf
    exact Or.inr (Or.inr (Or.inl ⟨hb', hm', hany, ev₂, rfl⟩))
  · rw [hres] at hok
    have hany : anyBackendSucceeds e fs0 p = true := by
      rw [← anyBackendSucceeds_ensureDir e fs0 (outDirOf p) p,
        anyBackendSucceeds_eq_chain]
      exact hSt
    obtain ⟨q, fs', ev', heq, hcand, hex, hdirs, hpos, hsub⟩ := hok
    refine Or.inr (Or.inr (Or.inr ⟨hb', hm', hany, q, fs', ev', heq, hcand, hex,
      hdirs, ?_, ?_⟩))
    · intro h1 h2
      exact hpos (fsAllPos_ensureDir fs0 _ h1) h2
    · intro q₂ m hm2
      rcases hsub q₂ m hm2 with h | h
      · rw [ensureDir_files] at h
        exact Or.inl h
      · exact Or.inr h

/-! ## Auxiliary lemmas for the claims -/

theorem pyLower_eq_empty_iff (s : String) : pyLower s = "" ↔ s = "" := by
  unfold pyLower
  constructor
  · intro h
    have : (s.data.map Char.toLower) = [] := by
      have := congrArg String.data h
      simpa using this
    have hs : s.data = [] := by simpa using this
    exact String.ext hs
  · intro h
    rw [h]
    rfl

theorem pyDirname_change_ext (p ext : String) (hbare : pyDirname p = "")
    (hext : '/' ∉ ext.data) : pyDirname (change_ext p ext) = "" := by
  rw [pyDirname_eq_empty_iff] at hbare ⊢
  intro hmem
  rcases mem_change_ext_data p ext '/' hmem with h | h
  · exact hbare h
  · exact hext h

theorem mem_pathCandidates_dirname (p q : String) (hbare : pyDirname p = "")
    (hq : q ∈ pathCandidates p) : pyDirname q = "" := by
  simp only [pathCandidates, List.mem_cons, List.not_mem_nil, or_false] at hq
  rcases hq with rfl | rfl | rfl | rfl | rfl
  · exact hbare
  · exact pyDirname_change_ext p ".mp3" hbare (by decide)
  · exact pyDirname_change_ext p ".wav" hbare (by decide)
  · exact pyDirname_change_ext p ".aiff" hbare (by decide)
  · exact pyDirname_change_ext p ".m4a" hbare (by decide)

theorem requestedExtOf_of_mp3 (p : String) (hext : pyLower (splitext p).2 = ".mp3") :
    requestedExtOf p = ".mp3" := by
  unfold requestedExtOf
  rw [hext]
  simp

/-! ## Concrete environments for witnesses and counterexamples -/

/-- Environment with every dependency absent or failing (writers, were they to
run, would produce 1-byte files). -/
def envNone : Env :=
  { gttsImportOk := false, gttsSaveOk := false, gttsBytes := 1,
    pyttsx3ImportOk := false, pyttsx3RunOk := false, pyttsx3CreatesWav := false,
    pyttsx3Bytes := 1, sysPlatform := "", sayOnPath := false, sayRunOk := false,
    sayBytes := 1, afconvertOnPath := false, afconvertRunOk := false,
    afconvertBytes := 1, ffmpegOnPath := false, ffmpegRunOk := false,
    ffmpegCreatesDst := false, ffmpegBytes := 1, espeakNgOnPath := false,
    espeakOnPath := false, espeakRunOk := false, espeakBytes := 1,
    powershellRunOk := false, powershellCreatesWav := false, powershellBytes := 1,
    mkdirOk := false }

/-- No backend available, but directory creation works. -/
def envAllOff : Env := { envNone with mkdirOk := true }

/-- Only gTTS available and fully working. -/
def envGtts : Env :=
  { envNone with mkdirOk := true, gttsImportOk := true, gttsSaveOk := true }

/-- gTTS importable but its save fails; pyttsx3 fully working. -/
def envGttsBroken : Env :=
  { envNone with
    mkdirOk := true, gttsImportOk := true, pyttsx3ImportOk := true,
    pyttsx3RunOk := true, pyttsx3CreatesWav := true }

/-- Only pyttsx3 available, with a fully working ffmpeg. -/
def envPyttsxFfmpeg : Env :=
  { envNone with
    mkdirOk := true, pyttsx3ImportOk := true, pyttsx3RunOk := true,
    pyttsx3CreatesWav := true, ffmpegOnPath := true, ffmpegRunOk := true,
    ffmpegCreatesDst := true }

/-- Only pyttsx3 available, no converter. -/
def envPyttsxOnly : Env :=
  { envNone with
    mkdirOk := true, pyttsx3ImportOk := true, pyttsx3RunOk := true,
    pyttsx3CreatesWav := true }

/-- macOS with a working `say` and a working `afconvert`, no ffmpeg. -/
def envMacAfconvert : Env :=
  { envNone with
    mkdirOk := true, sysPlatform := "darwin", sayOnPath := true,
    sayRunOk := true, afconvertOnPath := true, afconvertRunOk := true }

/-- gTTS importable (available in the spec's sense) but its save fails; no
other backend installed. -/
def envGttsImportOnly : Env := { envNone with mkdirOk := true, gttsImportOk := true }

/-- Linux with only the legacy `espeak` command and no converter. -/
def envLinuxLegacy : Env :=
  { envNone with
    mkdirOk := true, sysPlatform := "linux", espeakOnPath := true,
    espeakRunOk := true }

/-- Linux with both `espeak-ng` and `espeak` installed, no converter. -/
def envLinuxBoth : Env := { envLinuxLegacy with espeakNgOnPath := true }

/-! ## Claims -/

/-- C1: for every call to `generate_tts(text, output_filepath)` with `text`
empty or all-whitespace, the call fails with the `ValueError` (`EmptyInputError`)
before any backend is attempted (empty event trace) and before the output
directory is created: the file system is returned entirely unchanged. -/
theorem generate_tts_blank_input (e : Env) (fs : FS) (text p : String)
    (h : pyStrip text = "") :
    generate_tts e fs text p = (.error (.valueError "Text is empty."), fs, []) := by
  have hb : pyBlank text = true := by simp [pyBlank, h]
  simp [generate_tts, hb]

/-- Witness for C1 at a whitespace-only input with every backend installed. -/
theorem generate_tts_blank_input_witness :
    pyStrip " \t\n " = "" ∧
    generate_tts envGtts emptyFS " \t\n " "out/voice.mp3" =
      (.error (.valueError "Text is empty."), emptyFS, []) :=
  ⟨by decide, generate_tts_blank_input envGtts emptyFS " \t\n " "out/voice.mp3"
    (by decide)⟩

/-- C2: `generate_tts` fails with the `RuntimeError` carrying the remediation
message exactly when the input was non-blank, the directory was created, and
every backend in the chain was unavailable or failed; the `ValueError` occurs
exactly on blank input, the directory-creation error exactly when `os.makedirs`
fails on non-blank input, and the remediation message names the installable
remedies (gTTS, pyttsx3, the OS speech tools). -/
theorem generate_tts_error_taxonomy (e : Env) (fs : FS) (text p : String) :
    ((generate_tts e fs text p).1 = .error (.runtimeError noBackendMessage) ↔
      (pyBlank text = false ∧ e.mkdirOk = true ∧ anyBackendSucceeds e fs p = false))
    ∧ (∀ m, (generate_tts e fs text p).1 = .error (.valueError m) ↔
      (pyBlank text = true ∧ m = "Text is empty."))
    ∧ ((generate_tts e fs text p).1 = .error .osError ↔
      (pyBlank text = false ∧ e.mkdirOk = false))
    ∧ (∀ m, (generate_tts e fs text p).1 = .error (.runtimeError m) →
      m = noBackendMessage)
    ∧ "pip install gTTS".data <:+: noBackendMessage.data
    ∧ "pip install pyttsx3".data <:+: noBackendMessage.data
    ∧ "espeak-ng".data <:+: noBackendMessage.data
    ∧ "macOS `say`".data <:+: noBackendMessage.data := by
  rcases generate_tts_spec e fs text p with ⟨hb, hc⟩ | ⟨hb, hm, hc⟩
    | ⟨hb, hm, hany, ev₂, hc⟩ | ⟨hb, hm, hany, q, fs', ev', hc, _⟩ <;> rw [hc] <;>
    refine ⟨?_, ?_, ?_, ?_, by decide, by decide, by decide, by decide⟩ <;>
    try simp_all
  exact fun m => ⟨fun h => h.symm, fun h => h.symm⟩

/-- Witness for C2: with no backend available and a writable directory, the
call fails with the `RuntimeError` (via the taxonomy theorem). -/
theorem generate_tts_error_taxonomy_witness :
    (generate_tts envAllOff emptyFS "Hello" "out/voice.mp3").1 =
      .error (.runtimeError noBackendMessage) :=
  (generate_tts_error_taxonomy envAllOff emptyFS "Hello" "out/voice.mp3").1.mpr
    ⟨by decide, by decide, by decide⟩

/-- C7: on Linux with only the legacy `espeak` and no converter,
`generate_tts("Hello world", "out/voice.mp3")` returns `"out/voice.wav"`, that
file exists, `"out/voice.mp3"` does not exist; and with both command variants
installed the invoked command is `espeak-ng`, not `espeak`. -/
theorem linux_legacy_espeak_scenario :
    (generate_tts envLinuxLegacy emptyFS "Hello world" "out/voice.mp3").1 =
      .ok "out/voice.wav"
    ∧ fsExistsFile (generate_tts envLinuxLegacy emptyFS "Hello world"
        "out/voice.mp3").2.1 "out/voice.wav" = true
    ∧ fsExistsFile (generate_tts envLinuxLegacy emptyFS "Hello world"
        "out/voice.mp3").2.1 "out/voice.mp3" = false
    ∧ (generate_tts envLinuxLegacy emptyFS "Hello world" "out/voice.mp3").2.2 =
      [Event.subprocessRun ["espeak", "-w", "out/voice.wav", "Hello world"]]
    ∧ (generate_tts envLinuxBoth emptyFS "Hello world" "out/voice.mp3").2.2 =
      [Event.subprocessRun ["espeak-ng", "-w", "out/voice.wav", "Hello world"]] :=
  ⟨rfl, by decide, by decide, rfl, rfl⟩

/-- C9: `_convert_with_ffmpeg` invokes ffmpeg (exactly when it is on the path)
with a 44100 Hz sample rate, 2 channels and a 192k bitrate, and returns `none`
exactly when the tool is absent, the process fails, or the destination file
does not exist afterwards. -/
theorem convert_with_ffmpeg_behaviour (e : Env) (fs : FS) (src dst : String) :
    ((convert_with_ffmpeg e fs src dst).2.2 =
      if e.ffmpegOnPath = true then
        [Event.subprocessRun ["ffmpeg", "-y", "-i", src, "-vn", "-ar", "44100",
          "-ac", "2", "-b:a", "192k", dst]]
      else [])
    ∧ ((convert_with_ffmpeg e fs src dst).1 = none ↔
      (e.ffmpegOnPath = false ∨ e.ffmpegRunOk = false ∨
        fsExistsFile (convert_with_ffmpeg e fs src dst).2.1 dst = false)) := by
  rcases convert_spec e fs src dst with ⟨h1, hc⟩ | ⟨h1, h2, hc⟩ | ⟨h1, h2, h3, hc⟩
    | ⟨h1, h2, h3, h4, hc⟩ | ⟨h1, h2, h3, h4, hc⟩ <;> rw [hc] <;>
    constructor <;>
    simp_all [ffmpegCmd, fsExistsFile_fsWrite]

/-- C3 (counterexample): a backend being available — the spec's availability
check is only that its dependency can be loaded — does not suffice for success:
with the gTTS library importable but its save failing and no other backend
installed, `generate_tts` on non-empty text and an `.mp3` path raises the
`RuntimeError` and writes no file at all, refuting the original claim. -/
theorem generate_tts_availability_counterexample :
    envGttsImportOnly.gttsImportOk = true
    ∧ pyBlank "Hello" = false
    ∧ pyLower (splitext "out/voice.mp3").2 = ".mp3"
    ∧ (generate_tts envGttsImportOnly emptyFS "Hello" "out/voice.mp3").1 =
      .error (.runtimeError noBackendMessage)
    ∧ (generate_tts envGttsImportOnly emptyFS "Hello" "out/voice.mp3").2.1.files
      = [] :=
  ⟨rfl, by decide, by decide, rfl, rfl⟩

/-- C3 (amended): for non-blank text and an output path with (lowercased)
extension `.mp3`, if the directory can be created, at least one backend in the
chain is available AND runs to completion, every external writer produces
non-empty files, and every pre-existing file is non-empty, then `generate_tts`
returns the path of a file that exists in the final file system and is
non-empty — no partial success is reported as success. -/
theorem generate_tts_success (e : Env) (fs : FS) (text p : String)
    (hb : pyBlank text = false) (hm : e.mkdirOk = true)
    (hext : pyLower (splitext p).2 = ".mp3")
    (hany : anyBackendSucceeds e fs p = true)
    (hbytes : envBytesPos e) (hfs : fsAllPos fs) :
    ∃ q n, (generate_tts e fs text p).1 = .ok q ∧
      fsSize (generate_tts e fs text p).2.1 q = some n ∧ 0 < n := by
  rcases generate_tts_spec e fs text p with ⟨hb2, hc⟩ | ⟨_, hm2, hc⟩
    | ⟨_, _, hany2, ev₂, hc⟩ | ⟨_, _, _, q, fs', ev', hc, _, hex, _, hpos, _⟩
  · rw [hb2] at hb; exact absurd hb (by simp)
  · rw [hm2] at hm; exact absurd hm (by simp)
  · rw [hany2] at hany; exact absurd hany (by simp)
  · rw [hc]
    obtain ⟨n, hn, hpos'⟩ := fsSize_pos_of_allPos fs' q (hpos hfs hbytes) hex
    exact ⟨q, n, rfl, hn, hpos'⟩

/-- Witness for C3: gTTS alone available, empty initial file system. -/
theorem generate_tts_success_witness :
    pyBlank "Hello" = false ∧
    ∃ q n, (generate_tts envGtts emptyFS "Hello" "out/voice.mp3").1 = .ok q ∧
      fsSize (generate_tts envGtts emptyFS "Hello" "out/voice.mp3").2.1 q = some n ∧
      0 < n :=
  ⟨by decide, generate_tts_success envGtts emptyFS "Hello" "out/voice.mp3"
    (by decide) (by decide) (by decide) (by decide)
    ⟨by decide, by decide, by decide, by decide, by decide, by decide, by decide⟩
    (fun q n h => absurd h (by simp [emptyFS]))⟩

/-- C4 (counterexample): with the gTTS library importable (Backend A available)
but its save failing, and pyttsx3 working, `generate_tts` invokes Backend B and
returns a `.wav` path — refuting the claim that mere availability of Backend A
guarantees an `.mp3` result with B and C never invoked. -/
theorem gtts_short_circuit_counterexample :
    envGttsBroken.gttsImportOk = true
    ∧ (generate_tts envGttsBroken emptyFS "Hello" "out/voice.mp3").1 =
      .ok "out/voice.wav"
    ∧ pyLower (splitext "out/voice.wav").2 ≠ ".mp3"
    ∧ Event.pyttsx3Invoke "Hello" "out/voice.wav" ∈
      (generate_tts envGttsBroken emptyFS "Hello" "out/voice.mp3").2.2 :=
  ⟨rfl, rfl, by decide, by decide⟩

/-- C4 (amended): whenever the gTTS library can be loaded AND its save call
succeeds, `generate_tts` returns the gTTS path (the desired path itself when
the requested extension is `.mp3`, else the desired path with its extension
changed to `.mp3`), whose lowercased form ends in `.mp3` whenever the desired
path has an extension, and Backends B and C are never invoked. -/
theorem gtts_short_circuit (e : Env) (fs : FS) (text p : String)
    (hb : pyBlank text = false) (hm : e.mkdirOk = true)
    (himp : e.gttsImportOk = true) (hsave : e.gttsSaveOk = true) :
    ∃ ret, generate_tts e fs text p =
      (.ok ret, fsWrite (ensureDir fs (outDirOf p)) ret e.gttsBytes,
        [Event.gttsSave ret])
    ∧ ret = (if requestedExtOf p = ".mp3" then p else change_ext p ".mp3")
    ∧ ((splitext p).2 ≠ "" → ".mp3".data <:+ (pyLower ret).data)
    ∧ (∀ x ∈ (generate_tts e fs text p).2.2, isBackendBCInvocation x = false) := by
  by_cases hreq : requestedExtOf p = ".mp3"
  · have hmain : generate_tts e fs text p =
        (.ok p, fsWrite (ensureDir fs (outDirOf p)) p e.gttsBytes,
          [Event.gttsSave p]) := by
      simp [generate_tts, gttsStage, hb, hm, himp, hsave, hreq]
    refine ⟨p, hmain, by simp [hreq], ?_, ?_⟩
    · intro hext
      have hne : ¬ pyLower (splitext p).2 = "" :=
        fun h => hext ((pyLower_eq_empty_iff _).mp h)
      have hlow : pyLower (splitext p).2 = ".mp3" := by
        unfold requestedExtOf at hreq
        rw [if_neg hne] at hreq
        exact hreq
      have h1 : p.data = (splitext p).1.data ++ (splitext p).2.data := by
        have h2 := congrArg String.data (splitext_fst_append_snd p)
        rw [String.data_append] at h2
        exact h2.symm
      have hdata : (pyLower p).data =
          ((splitext p).1.data.map Char.toLower) ++ ".mp3".data := by
        show p.data.map Char.toLower = _
        rw [h1, List.map_append]
        congr 1
        exact congrArg String.data hlow
      rw [hdata]
      exact List.suffix_append _ _
    · intro x hx
      rw [hmain] at hx
      simp only [List.mem_singleton] at hx
      subst hx
      rfl
  · have hmain : generate_tts e fs text p =
        (.ok (change_ext p ".mp3"),
          fsWrite (ensureDir fs (outDirOf p)) (change_ext p ".mp3") e.gttsBytes,
          [Event.gttsSave (change_ext p ".mp3")]) := by
      simp [generate_tts, gttsStage, hb, hm, himp, hsave, hreq]
    refine ⟨change_ext p ".mp3", hmain, by simp [hreq], ?_, ?_⟩
    · intro _
      have hdata : (pyLower (change_ext p ".mp3")).data =
          ((splitext p).1.data.map Char.toLower) ++ ".mp3".data := by
        show (change_ext p ".mp3").data.map Char.toLower = _
        rw [change_ext_data, List.map_append,
          show ".mp3".data.map Char.toLower = ".mp3".data from by decide]
      rw [hdata]
      exact List.suffix_append _ _
    · intro x hx
      rw [hmain] at hx
      simp only [List.mem_singleton] at hx
      subst hx
      rfl

/-- Witness for C4 (amended) at a concrete fully-working gTTS environment. -/
theorem gtts_short_circuit_witness :
    pyBlank "Hello" = false ∧
    ∃ ret, generate_tts envGtts emptyFS "Hello" "out/voice.mp3" =
      (.ok ret, fsWrite (ensureDir emptyFS (outDirOf "out/voice.mp3")) ret
        envGtts.gttsBytes, [Event.gttsSave ret])
    ∧ ret = (if requestedExtOf "out/voice.mp3" = ".mp3" then "out/voice.mp3"
        else change_ext "out/voice.mp3" ".mp3")
    ∧ ((splitext "out/voice.mp3").2 ≠ "" →
        ".mp3".data <:+ (pyLower ret).data)
    ∧ (∀ x ∈ (generate_tts envGtts emptyFS "Hello" "out/voice.mp3").2.2,
        isBackendBCInvocation x = false) :=
  ⟨by decide, gtts_short_circuit envGtts emptyFS "Hello" "out/voice.mp3"
    (by decide) (by decide) (by decide) (by decide)⟩

/-- C5: with only pyttsx3 available, `.mp3` requested, and a fully working
ffmpeg, `generate_tts` returns the `.mp3` path (ending in `.mp3`) and the
intermediate `.wav` file no longer exists. -/
theorem pyttsx3_converted_to_mp3 (e : Env) (fs : FS) (text p : String)
    (hb : pyBlank text = false) (hm : e.mkdirOk = true)
    (hA : e.gttsImportOk = false) (hBi : e.pyttsx3ImportOk = true)
    (hBr : e.pyttsx3RunOk = true) (hBw : e.pyttsx3CreatesWav = true)
    (hext : pyLower (splitext p).2 = ".mp3")
    (hf1 : e.ffmpegOnPath = true) (hf2 : e.ffmpegRunOk = true)
    (hf3 : e.ffmpegCreatesDst = true) :
    (generate_tts e fs text p).1 = .ok (change_ext p ".mp3")
    ∧ fsExistsFile (generate_tts e fs text p).2.1 (change_ext p ".wav") = false
    ∧ ".mp3".data <:+ (change_ext p ".mp3").data := by
  have hreq := requestedExtOf_of_mp3 p hext
  have hconv := convert_all_ok e
    (fsWrite (ensureDir fs (outDirOf p)) (change_ext p ".wav") e.pyttsx3Bytes)
    (change_ext p ".wav") (change_ext p ".mp3") hf1 hf2 hf3
  refine ⟨?_, ?_, suffix_change_ext p ".mp3"⟩
  · simp [generate_tts, gttsStage, pyttsx3Stage, hb, hm, hA, hBi, hBr, hBw,
      hreq, hconv, fsExistsFile_fsWrite]
  · simp [generate_tts, gttsStage, pyttsx3Stage, hb, hm, hA, hBi, hBr, hBw,
      hreq, hconv, fsExistsFile_fsWrite, fsExistsFile_fsRemove]

/-- Witness for C5 at a concrete environment. -/
theorem pyttsx3_converted_to_mp3_witness :
    pyBlank "Hello" = false ∧
    ((generate_tts envPyttsxFfmpeg emptyFS "Hello" "out/voice.mp3").1 =
      .ok (change_ext "out/voice.mp3" ".mp3")
    ∧ fsExistsFile (generate_tts envPyttsxFfmpeg emptyFS "Hello"
        "out/voice.mp3").2.1 (change_ext "out/voice.mp3" ".wav") = false
    ∧ ".mp3".data <:+ (change_ext "out/voice.mp3" ".mp3").data) :=
  ⟨by decide, pyttsx3_converted_to_mp3 envPyttsxFfmpeg emptyFS "Hello"
    "out/voice.mp3" (by decide) (by decide) (by decide) (by decide) (by decide)
    (by decide) (by decide) (by decide) (by decide) (by decide)⟩

/-- C6: with only pyttsx3 available, `.mp3` requested, the conversion tool
absent, and no pre-existing `.mp3` file, `generate_tts` returns the `.wav`
path (ending in `.wav`) and no `.mp3` file exists; the format mismatch is
accepted as success. -/
theorem pyttsx3_wav_fallback (e : Env) (fs : FS) (text p : String)
    (hb : pyBlank text = false) (hm : e.mkdirOk = true)
    (hA : e.gttsImportOk = false) (hBi : e.pyttsx3ImportOk = true)
    (hBr : e.pyttsx3RunOk = true) (hBw : e.pyttsx3CreatesWav = true)
    (hext : pyLower (splitext p).2 = ".mp3")
    (hf1 : e.ffmpegOnPath = false)
    (hmp3 : fsExistsFile fs (change_ext p ".mp3") = false) :
    (generate_tts e fs text p).1 = .ok (change_ext p ".wav")
    ∧ fsExistsFile (generate_tts e fs text p).2.1 (change_ext p ".mp3") = false
    ∧ ".wav".data <:+ (change_ext p ".wav").data := by
  have hreq := requestedExtOf_of_mp3 p hext
  have hconv := convert_no_ffmpeg e
    (fsWrite (ensureDir fs (outDirOf p)) (change_ext p ".wav") e.pyttsx3Bytes)
    (change_ext p ".wav") (change_ext p ".mp3") hf1
  refine ⟨?_, ?_, suffix_change_ext p ".wav"⟩
  · simp [generate_tts, gttsStage, pyttsx3Stage, hb, hm, hA, hBi, hBr, hBw,
      hreq, hconv, fsExistsFile_fsWrite]
  · simp [generate_tts, gttsStage, pyttsx3Stage, hb, hm, hA, hBi, hBr, hBw,
      hreq, hconv, fsExistsFile_fsWrite, fsExistsFile_ensureDir, hmp3,
      (mp3_ne_wav p)]

/-- Witness for C6 at a concrete environment. -/
theorem pyttsx3_wav_fallback_witness :
    pyBlank "Hello" = false ∧
    ((generate_tts envPyttsxOnly emptyFS "Hello" "out/voice.mp3").1 =
      .ok (change_ext "out/voice.mp3" ".wav")
    ∧ fsExistsFile (generate_tts envPyttsxOnly emptyFS "Hello"
        "out/voice.mp3").2.1 (change_ext "out/voice.mp3" ".mp3") = false
    ∧ ".wav".data <:+ (change_ext "out/voice.mp3" ".wav").data) :=
  ⟨by decide, pyttsx3_wav_fallback envPyttsxOnly emptyFS "Hello" "out/voice.mp3"
    (by decide) (by decide) (by decide) (by decide) (by decide) (by decide)
    (by decide) (by decide) (by decide)⟩

/-- C8: on macOS with a working `say` and `.mp3` requested (gTTS and pyttsx3
unavailable): if `afconvert` is available and succeeds, the `.m4a` path is
returned, the file exists and the `.aiff` intermediate is removed; otherwise,
if ffmpeg is fully working, the `.mp3` path is returned; if neither converter
is available, the `.aiff` path is returned. -/
theorem mac_conversion_precedence (e : Env) (fs : FS) (text p : String)
    (hb : pyBlank text = false) (hm : e.mkdirOk = true)
    (hA : e.gttsImportOk = false) (hBi : e.pyttsx3ImportOk = false)
    (hplat : e.sysPlatform = "darwin") (hsay1 : e.sayOnPath = true)
    (hsay2 : e.sayRunOk = true)
    (hext : pyLower (splitext p).2 = ".mp3") :
    (e.afconvertOnPath = true → e.afconvertRunOk = true →
      (generate_tts e fs text p).1 = .ok (change_ext p ".m4a")
      ∧ fsExistsFile (generate_tts e fs text p).2.1 (change_ext p ".m4a") = true
      ∧ fsExistsFile (generate_tts e fs text p).2.1 (change_ext p ".aiff") = false)
    ∧ ((e.afconvertOnPath = false ∨ e.afconvertRunOk = false) →
      e.ffmpegOnPath = true → e.ffmpegRunOk = true → e.ffmpegCreatesDst = true →
      (generate_tts e fs text p).1 = .ok (change_ext p ".mp3"))
    ∧ (e.afconvertOnPath = false → e.ffmpegOnPath = false →
      (generate_tts e fs text p).1 = .ok (change_ext p ".aiff")) := by
  have hreq := requestedExtOf_of_mp3 p hext
  refine ⟨?_, ?_, ?_⟩
  · intro ha1 ha2
    refine ⟨?_, ?_, ?_⟩ <;>
      simp [generate_tts, gttsStage, pyttsx3Stage, macStage, hb, hm, hA, hBi,
        hplat, hsay1, hsay2, hreq, ha1, ha2, which, fsExistsFile_fsWrite,
        fsExistsFile_fsRemove, (m4a_ne_aiff p)]
  · intro ha hff1 hff2 hff3
    have hconv := convert_all_ok e
      (fsWrite (ensureDir fs (outDirOf p)) (change_ext p ".aiff") e.sayBytes)
      (change_ext p ".aiff") (change_ext p ".mp3") hff1 hff2 hff3
    rcases ha with ha | ha
    · simp [generate_tts, gttsStage, pyttsx3Stage, macStage, hb, hm, hA, hBi,
        hplat, hsay1, hsay2, hreq, ha, hconv, which]
    · cases hao : e.afconvertOnPath
      · simp [generate_tts, gttsStage, pyttsx3Stage, macStage, hb, hm, hA, hBi,
          hplat, hsay1, hsay2, hreq, ha, hao, hconv, which]
      · simp [generate_tts, gttsStage, pyttsx3Stage, macStage, hb, hm, hA, hBi,
          hplat, hsay1, hsay2, hreq, ha, hao, hconv, which]
  · intro ha hff
    have hconv := convert_no_ffmpeg e
      (fsWrite (ensureDir fs (outDirOf p)) (change_ext p ".aiff") e.sayBytes)
      (change_ext p ".aiff") (change_ext p ".mp3") hff
    simp [generate_tts, gttsStage, pyttsx3Stage, macStage, hb, hm, hA, hBi,
      hplat, hsay1, hsay2, hreq, ha, hconv, which]

/-- Witness for C8 at a concrete environment with a working `afconvert`. -/
theorem mac_conversion_precedence_witness :
    pyBlank "Hello" = false ∧
    ((generate_tts envMacAfconvert emptyFS "Hello" "out/voice.mp3").1 =
      .ok (change_ext "out/voice.mp3" ".m4a")
    ∧ fsExistsFile (generate_tts envMacAfconvert emptyFS "Hello"
        "out/voice.mp3").2.1 (change_ext "out/voice.mp3" ".m4a") = true
    ∧ fsExistsFile (generate_tts envMacAfconvert emptyFS "Hello"
        "out/voice.mp3").2.1 (change_ext "out/voice.mp3" ".aiff") = false) :=
  ⟨by decide, (mac_conversion_precedence envMacAfconvert emptyFS "Hello"
    "out/voice.mp3" (by decide) (by decide) (by decide) (by decide) (by decide)
    (by decide) (by decide) (by decide)).1 (by decide) (by decide)⟩

/-- C10: when `output_filepath` is a bare filename (no directory component),
`generate_tts` creates the directory `"output"` as a side effect, yet every
file it writes is at a bare filename (empty `dirname`, i.e. relative to the
working directory, not inside `"output"`), and any returned path likewise has
an empty `dirname`. -/
theorem bare_filename_output_dir (e : Env) (fs : FS) (text p : String)
    (hbare : pyDirname p = "") (hb : pyBlank text = false)
    (hm : e.mkdirOk = true) :
    OUTPUT_DIR ∈ (generate_tts e fs text p).2.1.dirs
    ∧ (∀ q, (generate_tts e fs text p).1 = .ok q → pyDirname q = "")
    ∧ (∀ q n, (q, n) ∈ (generate_tts e fs text p).2.1.files →
      (q, n) ∈ fs.files ∨ pyDirname q = "") := by
  have hout : outDirOf p = OUTPUT_DIR := by simp [outDirOf, hbare]
  rcases generate_tts_spec e fs text p with ⟨hb2, hc⟩ | ⟨_, hm2, hc⟩
    | ⟨_, _, _, ev₂, hc⟩ | ⟨_, _, _, q, fs', ev', hc, hcand, _, hdirs, _, hsub⟩
  · rw [hb2] at hb; exact absurd hb (by simp)
  · rw [hm2] at hm; exact absurd hm (by simp)
  · rw [hc]
    refine ⟨?_, ?_, ?_⟩
    · rw [← hout]
      exact mem_ensureDir_dirs fs (outDirOf p)
    · intro q hq
      simp at hq
    · intro q n hmem
      rw [ensureDir_files] at hmem
      exact Or.inl hmem
  · rw [hc]
    refine ⟨?_, ?_, ?_⟩
    · show OUTPUT_DIR ∈ fs'.dirs
      rw [hdirs, ← hout]
      exact mem_ensureDir_dirs fs (outDirOf p)
    · intro q₀ hq
      have : q₀ = q := by simpa using hq.symm
      subst this
      exact mem_pathCandidates_dirname p q₀ hbare hcand
    · intro q₂ n hmem
      rcases hsub q₂ n hmem with h | h
      · exact Or.inl h
      · exact Or.inr (mem_pathCandidates_dirname p q₂ hbare h)

/-- Witness for C10 at a bare filename with gTTS available. -/
theorem bare_filename_output_dir_witness :
    pyDirname "voice.mp3" = "" ∧
    (OUTPUT_DIR ∈ (generate_tts envGtts emptyFS "Hello" "voice.mp3").2.1.dirs
    ∧ (∀ q, (generate_tts envGtts emptyFS "Hello" "voice.mp3").1 = .ok q →
        pyDirname q = "")
    ∧ (∀ q n, (q, n) ∈ (generate_tts envGtts emptyFS "Hello" "voice.mp3").2.1.files →
        (q, n) ∈ emptyFS.files ∨ pyDirname q = "")) :=
  ⟨by decide, bare_filename_output_dir envGtts emptyFS "Hello" "voice.mp3"
    (by decide) (by decide) (by decide)⟩

end TTSSpec
